import Mathlib

/-
  Shallow embedding of the recursive ray tracer (C++ sources under src/).

  Modelling conventions:
  * C `float` values are embedded as exact real numbers (ℝ).
  * The float value `+infinity`, used throughout the sources as the
    "no intersection" sentinel, is embedded as `⊤` in `WithTop ℝ`;
    a finite intersection parameter `t` is `(t : WithTop ℝ)`.
  * glm vectors are small structures of reals; glm matrices are
    `Matrix (Fin 4) (Fin 4) ℝ` (column-major in glm, so `M * v` is
    `Matrix.mulVec` of the row-major transcription).
  * Where IEEE float semantics make a C expression produce `inf`/`NaN`
    (division by zero), the embedding reproduces the *net effect* of the
    source (all comparisons with NaN are false); each such place carries a
    comment justifying the translation.
-/

namespace RT

/-! ## Vectors (glm::vec2 / vec3 / vec4) -/

structure Vec2 where
  x : ℝ
  y : ℝ

structure Vec3 where
  x : ℝ
  y : ℝ
  z : ℝ

structure Vec4 where
  x : ℝ
  y : ℝ
  z : ℝ
  w : ℝ

instance : Add Vec3 := ⟨fun a b => ⟨a.x + b.x, a.y + b.y, a.z + b.z⟩⟩

instance : Neg Vec3 := ⟨fun a => ⟨-a.x, -a.y, -a.z⟩⟩

instance : Sub Vec3 := ⟨fun a b => ⟨a.x - b.x, a.y - b.y, a.z - b.z⟩⟩

instance : SMul ℝ Vec3 := ⟨fun c a => ⟨c * a.x, c * a.y, c * a.z⟩⟩

instance : Add Vec4 := ⟨fun a b => ⟨a.x + b.x, a.y + b.y, a.z + b.z, a.w + b.w⟩⟩

/-- glm componentwise product of two vec4 (used for color × color). -/
instance : Mul Vec4 := ⟨fun a b => ⟨a.x * b.x, a.y * b.y, a.z * b.z, a.w * b.w⟩⟩

instance : SMul ℝ Vec4 := ⟨fun c a => ⟨c * a.x, c * a.y, c * a.z, c * a.w⟩⟩

/-- glm `vec4 * float` (scalar on the right). -/
instance : HMul Vec4 ℝ Vec4 := ⟨fun a c => ⟨a.x * c, a.y * c, a.z * c, a.w * c⟩⟩

def Vec3.dot (a b : Vec3) : ℝ := a.x * b.x + a.y * b.y + a.z * b.z

def Vec3.cross (a b : Vec3) : Vec3 :=
  ⟨a.y * b.z - a.z * b.y, a.z * b.x - a.x * b.z, a.x * b.y - a.y * b.x⟩

noncomputable def Vec3.length (a : Vec3) : ℝ := Real.sqrt (Vec3.dot a a)

/-- glm `normalize`: `v / length(v)`.  For the zero vector the C code produces
NaN components; the embedding yields the zero vector (Lean's `x / 0 = 0`).
No claim below depends on normalizing a zero vector. -/
noncomputable def Vec3.normalize (a : Vec3) : Vec3 := (1 / a.length) • a

/-- glm `reflect I N = I - 2 * dot(N, I) * N`. -/
noncomputable def Vec3.reflect (I N : Vec3) : Vec3 := I - (2 * Vec3.dot N I) • N

def Vec4.ofVec3 (v : Vec3) (w : ℝ) : Vec4 := ⟨v.x, v.y, v.z, w⟩

def Vec4.xyz (v : Vec4) : Vec3 := ⟨v.x, v.y, v.z⟩

/-! ## Matrices (glm::mat4 / mat3) -/

abbrev Mat4 := Matrix (Fin 4) (Fin 4) ℝ

abbrev Mat3 := Matrix (Fin 3) (Fin 3) ℝ

def Vec4.toFn (v : Vec4) : Fin 4 → ℝ := ![v.x, v.y, v.z, v.w]

def Vec4.ofFn (f : Fin 4 → ℝ) : Vec4 := ⟨f 0, f 1, f 2, f 3⟩

/-- glm `mat4 * vec4`. -/
def Mat4.applyV4 (M : Mat4) (v : Vec4) : Vec4 := Vec4.ofFn (M.mulVec v.toFn)

def Vec3.toFn (v : Vec3) : Fin 3 → ℝ := ![v.x, v.y, v.z]

def Vec3.ofFn (f : Fin 3 → ℝ) : Vec3 := ⟨f 0, f 1, f 2⟩

/-- glm `mat3 * vec3`. -/
def Mat3.applyV3 (M : Mat3) (v : Vec3) : Vec3 := Vec3.ofFn (M.mulVec v.toFn)

/-- The upper-left 3×3 block of a 4×4 matrix
(`mat3(CTM[0], CTM[1], CTM[2])` restricted to xyz in the source). -/
def upperLeft3 (M : Mat4) : Mat3 :=
  Matrix.of fun i j => M (Fin.castSucc i) (Fin.castSucc j)

/-! ## RGBA and color conversions (utils/rgba.h, utils/utils.cpp) -/

/-- An 8-bit RGBA pixel; `a` defaults to 255 as in the struct definition. -/
structure RGBA where
  r : ℕ
  g : ℕ
  b : ℕ
  a : ℕ := 255
deriving DecidableEq

/-- Source `std::clamp(v, lo, hi)`. -/
noncomputable def clampF (v lo hi : ℝ) : ℝ := min (max v lo) hi

/-- A `SceneColor` is a glm::vec4 of float channels in [0,1]. -/
abbrev SceneColor := Vec4

/-- Source `toRGBA`: clamp each channel to [0,1], scale by 255 and truncate to an
8-bit integer (the C float→uint8 conversion truncates toward zero, which on
the clamped non-negative value is the floor). -/
noncomputable def toRGBA (illumination : Vec4) : RGBA :=
  ⟨⌊255 * clampF illumination.x 0 1⌋.toNat,
   ⌊255 * clampF illumination.y 0 1⌋.toNat,
   ⌊255 * clampF illumination.z 0 1⌋.toNat, 255⟩

noncomputable def RGBAtoSceneColor (color : RGBA) : SceneColor :=
  ⟨(color.r : ℝ) / 255, (color.g : ℝ) / 255, (color.b : ℝ) / 255, (color.a : ℝ) / 255⟩

/-! ## Scene data records (utils/scenedata.h, declared but not in src/;
field layout reconstructed from every use in the sources) -/

inductive LightType where
  | point
  | directional
  | spot
deriving DecidableEq

structure SceneFileMap where
  isUsed : Bool
  filename : String
  repeatU : ℤ
  repeatV : ℤ

structure SceneMaterial where
  cAmbient : SceneColor
  cDiffuse : SceneColor
  cSpecular : SceneColor
  cReflective : SceneColor
  shininess : ℝ
  blend : ℝ
  textureMap : SceneFileMap

structure SceneLightData where
  type : LightType
  pos : Vec4
  dir : Vec4
  color : SceneColor
  function : Vec3
  angle : ℝ
  penumbra : ℝ

structure SceneGlobalData where
  ka : ℝ
  kd : ℝ
  ks : ℝ

/-! ## Texture (texture/texture.h, unnamed texture.cpp)

The pixel data loaded from the image file is an external input
(QImage loading is I/O); it appears here as the `m_imgData` field. -/

structure Texture where
  m_imgData : List RGBA
  m_width : ℤ
  m_height : ℤ

/-- Source `Texture::UVtoImgCoord`.  The C ints are embedded as ℤ; `(int)floor` of a
non-negative float is `Int.floor`.  `%` is C integer remainder, which on the
non-negative operands produced here agrees with `Int.emod`. -/
noncomputable def Texture.UVtoImgCoord (tex : Texture) (UV : Vec2) (repeatU repeatV : ℤ) :
    ℤ × ℤ :=
  let U := UV.x
  let V := UV.y
  let height := tex.m_height
  let width := tex.m_width
  let row := min ((⌊(1 - V) * (repeatV : ℝ) * (height : ℝ)⌋) % height) (height - 1)
  let col := min ((⌊U * (repeatU : ℝ) * (width : ℝ)⌋) % width) (width - 1)
  (row, col)

/-- Source `Texture::getTextureColorAtUV`.  The C++ vector access
`m_imgData[row*m_width + col]` is undefined behavior when out of range; the
embedding totalizes it with an opaque-black default (never reached for a
well-formed texture). -/
noncomputable def Texture.getTextureColorAtUV (tex : Texture) (UV : Vec2)
    (repeatU repeatV : ℤ) : RGBA :=
  let rc := tex.UVtoImgCoord UV repeatU repeatV
  tex.m_imgData.getD (rc.1 * tex.m_width + rc.2).toNat ⟨0, 0, 0, 255⟩

/-! ## Ray (ray/ray.h, ray/ray.cpp) -/

/-- A ray `r(t) = pos + t·dir` carrying the mutable nearest-intersection
parameter `m_tIntersect`, which defaults to `+infinity = ⊤`. -/
structure Ray where
  m_dir : Vec3
  m_pos : Vec3
  m_tIntersect : WithTop ℝ := ⊤

def Ray.getPos (r : Ray) (t : ℝ) : Vec3 := r.m_pos + t • r.m_dir

def Ray.getDir (r : Ray) : Vec3 := r.m_dir

def Ray.getOrigin (r : Ray) : Vec3 := r.m_pos

def Ray.getIntersectionT (r : Ray) : WithTop ℝ := r.m_tIntersect

def Ray.setIntersectionT (r : Ray) (t : WithTop ℝ) : Ray := ⟨r.m_dir, r.m_pos, t⟩

/-- Source `Ray::getIntersectionPoint` = `getPos(m_tIntersect)`.  The source only
calls this under the guard `0 < tHit < infinity` (spec §4.1: undefined
otherwise); `untop' 0` totalizes the unreached `⊤` case. -/
noncomputable def Ray.getIntersectionPoint (r : Ray) : Vec3 :=
  r.getPos (r.m_tIntersect.untop' 0)

/-! ## Primitive: shared math helpers (primitives/primitive.cpp) -/

/-- The `infinity` member (`std::numeric_limits<float>::infinity()`). -/
def infinityF : WithTop ℝ := ⊤

/-- Source `Primitive::solveQuadratic`: smallest strictly positive root of
`A·t² + B·t + C = 0`, by the exact branch structure of the source: it returns
`t1` only when `0 < t1 < t2`, `t2` only when `0 < t2 < t1`, and `infinity`
otherwise (in particular for a double root, and when `t1 ≤ 0 < t2`).

When `A = 0`, both call sites (Sphere and the Cylinder lateral surface) have
`A = dx²+dy²+dz²` resp. `dx²+dz²`, and `A = 0` forces `B = 0` there; the C
division then yields NaN for both roots, every comparison with NaN is false,
and the function returns infinity — embedded as the `A = 0` branch. -/
noncomputable def solveQuadratic (A B C : ℝ) : WithTop ℝ :=
  if A = 0 then ⊤
  else
    let discriminant := B ^ 2 - 4 * A * C
    if 0 ≤ discriminant then
      let t1 := (-B - Real.sqrt discriminant) / (2 * A)
      let t2 := (-B + Real.sqrt discriminant) / (2 * A)
      if 0 < t1 ∧ t1 < t2 then (t1 : WithTop ℝ)
      else if 0 < t2 ∧ t2 < t1 then (t2 : WithTop ℝ)
      else ⊤
    else ⊤

/-- Source `Primitive::solveQuadraticBothSolutions`: both roots, or `(∞, ∞)` when the
discriminant is negative.  When `A = 0` (only the Cone calls this; a ray
parallel to the cone slope) the C divisions produce ±inf/NaN roots whose
subsequent height-bound checks in the caller always fail, so no candidate
survives; the embedding returns `(∞, ∞)`, which makes the caller skip the
lateral surface — the same net effect. -/
noncomputable def solveQuadraticBothSolutions (A B C : ℝ) : WithTop ℝ × WithTop ℝ :=
  if A = 0 then (⊤, ⊤)
  else
    let discriminant := B ^ 2 - 4 * A * C
    if 0 ≤ discriminant then
      (((-B - Real.sqrt discriminant) / (2 * A) : ℝ), ((-B + Real.sqrt discriminant) / (2 * A) : ℝ))
    else (⊤, ⊤)

inductive Plane where
  | XY
  | XZ
  | YZ

/-- Source `Primitive::intersectPlane`: smallest strictly positive `t` with the ray on
the given axis-aligned plane, else infinity.  When the relevant direction
component is zero the C division yields ±inf or NaN, and the `t > 0` ternary
then returns +inf either way (NaN > 0 is false); Lean's `x / 0 = 0` also fails
the `0 < t` test, so the embedding agrees without a special case. -/
noncomputable def intersectPlane (rayDir rayPos : Vec3) (plane : Plane)
    (planeOffset : ℝ) : WithTop ℝ :=
  let intersectionT : ℝ :=
    match plane with
    | Plane.XY => (planeOffset - rayPos.z) / rayDir.z
    | Plane.XZ => (planeOffset - rayPos.y) / rayDir.y
    | Plane.YZ => (planeOffset - rayPos.x) / rayDir.x
  if 0 < intersectionT then (intersectionT : WithTop ℝ) else ⊤

/-- Source `Primitive::getSmallest`: smallest element of the candidate list, or
infinity if the list is empty. -/
noncomputable def getSmallest (list : List ℝ) : WithTop ℝ :=
  list.foldr (fun a b => min (a : WithTop ℝ) b) ⊤

/-- Source `isInSquare` helper (cube.cpp). -/
noncomputable def isInSquare (x y sideLength : ℝ) : Prop :=
  |x| ≤ sideLength / 2 ∧ |y| ≤ sideLength / 2

noncomputable instance (x y s : ℝ) : Decidable (isInSquare x y s) := by
  unfold isInSquare
  exact instDecidableAnd

/-! ## Primitive variants: intersection routines -/

/-- Source `Sphere::getIntersectionT`. -/
noncomputable def sphereGetIntersectionT (m_radius : ℝ) (objSpaceRay : Ray) : WithTop ℝ :=
  let rayDir := objSpaceRay.getDir
  let rayPos := objSpaceRay.getOrigin
  let A := rayDir.x ^ 2 + rayDir.y ^ 2 + rayDir.z ^ 2
  let B := 2 * rayPos.x * rayDir.x + 2 * rayPos.y * rayDir.y + 2 * rayPos.z * rayDir.z
  let C := rayPos.x ^ 2 + rayPos.y ^ 2 + rayPos.z ^ 2 - m_radius ^ 2
  solveQuadratic A B C

/-- Source `Cube::getIntersectionT`: for each axis-pair of faces, the closer
plane intersection is bounds-checked and collected; the smallest candidate
(or infinity) is returned. -/
noncomputable def cubeGetIntersectionT (_m_sideLength : ℝ) (objSpaceRay : Ray) : WithTop ℝ :=
  let rayDir := objSpaceRay.getDir
  let rayPos := objSpaceRay.getOrigin
  -- faces parallel to the XY plane
  let tXY := min (intersectPlane rayDir rayPos Plane.XY (1/2))
               (intersectPlane rayDir rayPos Plane.XY (-(1/2)))
  let listXY : List ℝ :=
    match tXY with
    | ⊤ => []
    | (t : ℝ) =>
        if isInSquare (objSpaceRay.getPos t).x (objSpaceRay.getPos t).y 1 then [t] else []
  -- faces parallel to the XZ plane
  let tXZ := min (intersectPlane rayDir rayPos Plane.XZ (1/2))
               (intersectPlane rayDir rayPos Plane.XZ (-(1/2)))
  let listXZ : List ℝ :=
    match tXZ with
    | ⊤ => []
    | (t : ℝ) =>
        if isInSquare (objSpaceRay.getPos t).x (objSpaceRay.getPos t).z 1 then [t] else []
  -- faces parallel to the YZ plane
  let tYZ := min (intersectPlane rayDir rayPos Plane.YZ (1/2))
               (intersectPlane rayDir rayPos Plane.YZ (-(1/2)))
  let listYZ : List ℝ :=
    match tYZ with
    | ⊤ => []
    | (t : ℝ) =>
        if isInSquare (objSpaceRay.getPos t).y (objSpaceRay.getPos t).z 1 then [t] else []
  getSmallest (listXY ++ listXZ ++ listYZ)

/-- Source `Cylinder::getIntersectionT`.  For the caps the source bounds-checks
`getPos(currT)` without first guarding `currT < infinity`; when
`currT = +inf` the position components are ±inf or NaN and the disk test
`x² + z² ≤ r²` is false, so no candidate is pushed — embedded as the `⊤`
match arm. -/
noncomputable def cylinderGetIntersectionT (m_height m_radius : ℝ) (objSpaceRay : Ray) :
    WithTop ℝ :=
  let rayDir := objSpaceRay.getDir
  let rayPos := objSpaceRay.getOrigin
  -- 1) flat caps parallel to the XZ plane
  let tCap := min (intersectPlane rayDir rayPos Plane.XZ (1/2))
               (intersectPlane rayDir rayPos Plane.XZ (-(1/2)))
  let listCap : List ℝ :=
    match tCap with
    | ⊤ => []
    | (t : ℝ) =>
        if (objSpaceRay.getPos t).x ^ 2 + (objSpaceRay.getPos t).z ^ 2 ≤ m_radius ^ 2
        then [t] else []
  -- 2) lateral surface x² + z² = r²
  let A := rayDir.x ^ 2 + rayDir.z ^ 2
  let B := 2 * (rayDir.x * rayPos.x + rayDir.z * rayPos.z)
  let C := rayPos.x ^ 2 + rayPos.z ^ 2 - m_radius ^ 2
  let listBody : List ℝ :=
    match solveQuadratic A B C with
    | ⊤ => []
    | (t : ℝ) =>
        if -(m_height / 2) ≤ (objSpaceRay.getPos t).y ∧ (objSpaceRay.getPos t).y ≤ m_height / 2
        then [t] else []
  getSmallest (listCap ++ listBody)

/-- Source `Cone::getIntersectionT`.  Both lateral roots are height-checked
(*without* a positivity check) and pushed when in bounds; the base plane
candidate is likewise pushed without a positivity check.  For the base,
`currT = (-0.5 - py)/dy` with `dy = 0` gives ±inf or NaN in C; either the
`currT < infinity` guard fails (NaN) or the disk bound fails on an
infinite/NaN position, so no candidate survives — embedded as the `dy = 0`
branch. -/
noncomputable def coneGetIntersectionT (m_baseRadius m_height : ℝ) (objSpaceRay : Ray) :
    WithTop ℝ :=
  let rayDir := objSpaceRay.getDir
  let rayPos := objSpaceRay.getOrigin
  -- 1) conical top
  let A := rayDir.x ^ 2 + rayDir.z ^ 2 - (1/4) * rayDir.y ^ 2
  let B := 2 * rayPos.x * rayDir.x + 2 * rayPos.z * rayDir.z
             - (1/2) * rayPos.y * rayDir.y + (1/4) * rayDir.y
  let C := rayPos.x ^ 2 + rayPos.z ^ 2 - (1/4) * rayPos.y ^ 2
             + (1/4) * rayPos.y - 1/16
  let listLateral : List ℝ :=
    match solveQuadraticBothSolutions A B C with
    | ((t1 : ℝ), (t2 : ℝ)) =>
        (if -(m_height / 2) ≤ (objSpaceRay.getPos t1).y ∧
            (objSpaceRay.getPos t1).y ≤ m_height / 2 then [t1] else []) ++
        (if -(m_height / 2) ≤ (objSpaceRay.getPos t2).y ∧
            (objSpaceRay.getPos t2).y ≤ m_height / 2 then [t2] else [])
    | _ => []
  -- 2) flat base on the plane y = -0.5
  let listBase : List ℝ :=
    if rayDir.y = 0 then []
    else
      let currT := (-(1/2) - rayPos.y) / rayDir.y
      if (objSpaceRay.getPos currT).x ^ 2 + (objSpaceRay.getPos currT).z ^ 2
          ≤ m_baseRadius ^ 2
      then [currT] else []
  getSmallest (listLateral ++ listBase)

/-! ## Primitive variants: object-space normals -/

/-- Source `Sphere::getObjSpaceNormal` (gradient of the implicit equation). -/
def sphereGetObjSpaceNormal (objSpacePoint : Vec3) : Vec3 :=
  ⟨2 * objSpacePoint.x, 2 * objSpacePoint.y, 2 * objSpacePoint.z⟩

/-- Source `Cube::getObjSpaceNormal` (face chosen by epsilon tests; note the
source's first test uses the larger epsilon 0.001). -/
noncomputable def cubeGetObjSpaceNormal (objSpacePoint : Vec3) : Vec3 :=
  if |objSpacePoint.x - 1/2| < 1/1000 then ⟨1, 0, 0⟩
  else if |objSpacePoint.x + 1/2| < 1/10000 then ⟨-1, 0, 0⟩
  else if |objSpacePoint.y - 1/2| < 1/10000 then ⟨0, 1, 0⟩
  else if |objSpacePoint.y + 1/2| < 1/10000 then ⟨0, -1, 0⟩
  else if |objSpacePoint.z - 1/2| < 1/10000 then ⟨0, 0, 1⟩
  else ⟨0, 0, -1⟩

/-- Source `Cone::getObjSpaceNormal`. -/
noncomputable def coneGetObjSpaceNormal (m_height : ℝ) (objSpacePoint : Vec3) : Vec3 :=
  if |objSpacePoint.y + m_height / 2| < 1/10000 then ⟨0, -1, 0⟩
  else ⟨2 * objSpacePoint.x, 1/4 - (1/2) * objSpacePoint.y, 2 * objSpacePoint.z⟩

/-- Source `Cylinder::getObjSpaceNormal`. -/
noncomputable def cylinderGetObjSpaceNormal (objSpacePoint : Vec3) : Vec3 :=
  if |objSpacePoint.y - 1/2| < 1/10000 then ⟨0, 1, 0⟩
  else if |objSpacePoint.y + 1/2| < 1/10000 then ⟨0, -1, 0⟩
  else ⟨2 * objSpacePoint.x, 0, 2 * objSpacePoint.z⟩

/-! ## Primitive variants: UV parametrization -/

/-- C `atan2(b, a)`: the argument of the complex number `a + b·i`,
in `(-π, π]` with `atan2(0, 0) = 0`, matching the C convention on all
inputs reachable here. -/
noncomputable def atan2F (b a : ℝ) : ℝ := Complex.arg ⟨a, b⟩

/-- Source `Primitive::getCircleU`. -/
noncomputable def getCircleU (a b : ℝ) : ℝ :=
  let theta := atan2F b a
  if theta < 0 then -theta / (2 * Real.pi) else 1 - theta / (2 * Real.pi)

/-- Source `Sphere::XYZtoUV`.  C `asinf` on the in-range arguments produced by
surface points is `Real.arcsin`. -/
noncomputable def sphereXYZtoUV (m_radius : ℝ) (XYZ : Vec3) : Vec2 :=
  let V := Real.arcsin (XYZ.y / m_radius) / Real.pi + 1/2
  let U := if V = 0 ∨ V = 1 then 1/2 else getCircleU XYZ.x XYZ.z
  ⟨U, V⟩

/-- Source `Cube::XYZtoUV`. -/
noncomputable def cubeXYZtoUV (m_sideLength : ℝ) (XYZ : Vec3) : Vec2 :=
  if |XYZ.x - 1/2| < 1/1000 then ⟨-XYZ.z / m_sideLength + 1/2, XYZ.y / m_sideLength + 1/2⟩
  else if |XYZ.x + 1/2| < 1/10000 then ⟨XYZ.z / m_sideLength + 1/2, XYZ.y / m_sideLength + 1/2⟩
  else if |XYZ.y - 1/2| < 1/10000 then ⟨XYZ.x / m_sideLength + 1/2, -XYZ.z / m_sideLength + 1/2⟩
  else if |XYZ.y + 1/2| < 1/10000 then ⟨XYZ.x / m_sideLength + 1/2, XYZ.z / m_sideLength + 1/2⟩
  else if |XYZ.z - 1/2| < 1/10000 then ⟨XYZ.x / m_sideLength + 1/2, XYZ.y / m_sideLength + 1/2⟩
  else ⟨-XYZ.x / m_sideLength + 1/2, XYZ.y / m_sideLength + 1/2⟩

/-- Source `Cone::XYZtoUV`. -/
noncomputable def coneXYZtoUV (m_height : ℝ) (XYZ : Vec3) : Vec2 :=
  if |XYZ.y + m_height / 2| < 1/10000 then ⟨XYZ.x + 1/2, XYZ.z + 1/2⟩
  else
    let u := if XYZ.y = m_height / 2 then 1/2 else getCircleU XYZ.x XYZ.z
    ⟨u, XYZ.y + 1/2⟩

/-- Source `Cylinder::XYZtoUV`. -/
noncomputable def cylinderXYZtoUV (XYZ : Vec3) : Vec2 :=
  if |XYZ.y - 1/2| < 1/10000 then ⟨XYZ.x + 1/2, -XYZ.z + 1/2⟩
  else if |XYZ.y + 1/2| < 1/10000 then ⟨XYZ.x + 1/2, XYZ.z + 1/2⟩
  else ⟨getCircleU XYZ.x XYZ.z, XYZ.y + 1/2⟩

/-! ## Primitive (base class data and shared operations) -/

/-- The closed set of shape variants with their constructor parameters
(`RayTraceScene` instantiates Sphere 0.5, Cone 0.5 1, Cube 1, Cylinder 1 0.5). -/
inductive PrimitiveShape where
  | sphere (m_radius : ℝ)
  | cone (m_baseRadius m_height : ℝ)
  | cube (m_sideLength : ℝ)
  | cylinder (m_height m_radius : ℝ)

/-- A primitive as built by `Primitive::Primitive`: the variant with its
shape parameters, the cumulative transform, the material, and the (shared)
texture resolved from the texture dictionary. -/
structure Primitive where
  shape : PrimitiveShape
  m_CTM : Mat4
  material : SceneMaterial
  m_texture : Texture

/-- Source `m_inverseCTM`, precomputed once in the constructor as `inverse(m_CTM)`. -/
noncomputable def Primitive.m_inverseCTM (p : Primitive) : Mat4 := p.m_CTM⁻¹

/-- Source `m_objToWorldNormalTransformation = transpose(inverse(mat3(CTM)))`. -/
noncomputable def Primitive.m_objToWorldNormalTransformation (p : Primitive) : Mat3 :=
  ((upperLeft3 p.m_CTM)⁻¹).transpose

/-- Source `m_textureInfo = m_primitiveInfo.material.textureMap`. -/
def Primitive.m_textureInfo (p : Primitive) : SceneFileMap := p.material.textureMap

/-- Source `Primitive::applyCTM`. -/
noncomputable def Primitive.applyCTM (p : Primitive) (objSpacePoint : Vec3)
    (isVector : Bool) : Vec3 :=
  (p.m_CTM.applyV4 (Vec4.ofVec3 objSpacePoint (if isVector then 0 else 1))).xyz

/-- Source `Primitive::applyInverseCTM`. -/
noncomputable def Primitive.applyInverseCTM (p : Primitive) (worldSpacePoint : Vec3)
    (isVector : Bool) : Vec3 :=
  (p.m_inverseCTM.applyV4 (Vec4.ofVec3 worldSpacePoint (if isVector then 0 else 1))).xyz

/-- Virtual dispatch of `getIntersectionT` over the shape variants. -/
noncomputable def Primitive.getIntersectionT (p : Primitive) (objSpaceRay : Ray) : WithTop ℝ :=
  match p.shape with
  | PrimitiveShape.sphere r => sphereGetIntersectionT r objSpaceRay
  | PrimitiveShape.cone r h => coneGetIntersectionT r h objSpaceRay
  | PrimitiveShape.cube s => cubeGetIntersectionT s objSpaceRay
  | PrimitiveShape.cylinder h r => cylinderGetIntersectionT h r objSpaceRay

/-- Virtual dispatch of `getObjSpaceNormal`. -/
noncomputable def Primitive.getObjSpaceNormal (p : Primitive) (objSpacePoint : Vec3) : Vec3 :=
  match p.shape with
  | PrimitiveShape.sphere _ => sphereGetObjSpaceNormal objSpacePoint
  | PrimitiveShape.cone _ h => coneGetObjSpaceNormal h objSpacePoint
  | PrimitiveShape.cube _ => cubeGetObjSpaceNormal objSpacePoint
  | PrimitiveShape.cylinder _ _ => cylinderGetObjSpaceNormal objSpacePoint

/-- Virtual dispatch of `XYZtoUV`. -/
noncomputable def Primitive.XYZtoUV (p : Primitive) (XYZ : Vec3) : Vec2 :=
  match p.shape with
  | PrimitiveShape.sphere r => sphereXYZtoUV r XYZ
  | PrimitiveShape.cone _ h => coneXYZtoUV h XYZ
  | PrimitiveShape.cube s => cubeXYZtoUV s XYZ
  | PrimitiveShape.cylinder _ _ => cylinderXYZtoUV XYZ

/-- Source `Primitive::getWorldSpaceNormal`. -/
noncomputable def Primitive.getWorldSpaceNormal (p : Primitive) (objSpacePoint : Vec3) : Vec3 :=
  (p.m_objToWorldNormalTransformation.applyV3 (p.getObjSpaceNormal objSpacePoint)).normalize

def Primitive.getMaterial (p : Primitive) : SceneMaterial := p.material

/-- Source `Primitive::getTexture`: the opaque-black constant when no texture is
used, otherwise the texture image color at the clamped UV coordinates. -/
noncomputable def Primitive.getTexture (p : Primitive) (surfacePointObjSpace : Vec3) :
    SceneColor :=
  if p.m_textureInfo.isUsed = false then ⟨0, 0, 0, 1⟩
  else
    let rawUV := p.XYZtoUV surfacePointObjSpace
    let UV : Vec2 := ⟨clampF rawUV.x 0 1, clampF rawUV.y 0 1⟩
    RGBAtoSceneColor
      (p.m_texture.getTextureColorAtUV UV p.m_textureInfo.repeatU p.m_textureInfo.repeatV)

/-! ## Light (lights/light.h, lights/light.cpp) -/

/-- Source `Light` stores a copy of its `SceneLightData`; `m_type` and the
attenuation constants `c1,c2,c3` are copies of `lightData.type` and
`lightData.function`, so they appear below as projections. -/
structure Light where
  m_lightData : SceneLightData

def Light.getLightData (l : Light) : SceneLightData := l.m_lightData

def Light.getType (l : Light) : LightType := l.m_lightData.type

/-- Source `Light::getDirToLight`.  The `default` arm of the C switch repeats the
directional case; with the closed three-variant enum it is unreachable. -/
noncomputable def Light.getDirToLight (l : Light) (currPosition : Vec3) : Vec3 :=
  match l.m_lightData.type with
  | LightType.point => (l.m_lightData.pos.xyz - currPosition).normalize
  | LightType.spot => (l.m_lightData.pos.xyz - currPosition).normalize
  | LightType.directional => (-l.m_lightData.dir.xyz).normalize

/-- Source `Light::smoothFallOff`: the cubic ease `-2x³+3x²` of the angular offset
normalized between the inner and outer cone angles.  (`pow(x, 3)` at an
integer exponent is the exact power.)  When `penumbra = 0` the C division is
0/0 = NaN; Lean's convention gives `scaledX = 0`.  No claim is settled in
that degenerate case. -/
noncomputable def Light.smoothFallOff (l : Light) (x : ℝ) : ℝ :=
  if l.m_lightData.type ≠ LightType.spot then 0
  else
    let totalConeAngle := l.m_lightData.angle
    let innerConeAngle := totalConeAngle - l.m_lightData.penumbra
    let scaledX := (x - innerConeAngle) / (totalConeAngle - innerConeAngle)
    let eased := -2 * scaledX ^ 3 + 3 * scaledX ^ 2
    eased

/-- Source `Light::getColor`.  For a spot light the angle `θ` between the spotlight
direction and the light-to-position vector is `acos(dot/dist)`.  When the
query position coincides with the light position the C expression is
0/0 = NaN, both angle comparisons are false, and the full color is returned;
this is embedded as the explicit `dist = 0` branch. -/
noncomputable def Light.getColor (l : Light) (currPosition : Vec3) : SceneColor :=
  if l.m_lightData.type = LightType.spot then
    let spotlightDir := l.m_lightData.dir.xyz.normalize
    let lightToIntersection := currPosition - l.m_lightData.pos.xyz
    let distToLight := lightToIntersection.length
    if distToLight = 0 then l.m_lightData.color
    else
      let theta := Real.arccos (Vec3.dot lightToIntersection spotlightDir / distToLight)
      if theta > l.m_lightData.angle then ⟨0, 0, 0, 1⟩
      else if theta ≥ l.m_lightData.angle - l.m_lightData.penumbra then
        Vec4.ofVec3 ((1 - l.smoothFallOff theta) • l.m_lightData.color.xyz) 1
      else l.m_lightData.color
  else l.m_lightData.color

/-- Source `Light::attenuationFn = min(1, 1/(c1 + d·c2 + d²·c3))`.  A zero
denominator gives `1/+0 = +inf` in C and hence `min 1 inf = 1`; the
embedding makes that branch explicit. -/
noncomputable def Light.attenuationFn (l : Light) (distToLight : ℝ) : ℝ :=
  let c1 := l.m_lightData.function.x
  let c2 := l.m_lightData.function.y
  let c3 := l.m_lightData.function.z
  let denom := c1 + distToLight * c2 + distToLight ^ 2 * c3
  if denom = 0 then 1 else min 1 (1 / denom)

/-! ## Camera (camera/camera.h, unnamed camera.cpp) -/

structure SceneCameraData where
  pos : Vec4
  look : Vec4
  up : Vec4
  heightAngle : ℝ
  focalLength : ℝ
  aperture : ℝ

/-- The `Camera` class fields after the constructor ran (aspect = W/H,
width angle = height angle × aspect). -/
structure Camera where
  m_heightAngle : ℝ
  m_widthAngle : ℝ
  m_focalLength : ℝ
  m_aperature : ℝ
  m_pos : Vec4
  m_look : Vec4
  m_up : Vec4

/-- Source `Camera::Camera` (the aspect-ratio field is width/height). -/
noncomputable def Camera.ofData (cameraData : SceneCameraData) (imgWidth imgHeight : ℝ) : Camera :=
  ⟨cameraData.heightAngle, cameraData.heightAngle * (imgWidth / imgHeight),
   cameraData.focalLength, cameraData.aperture,
   cameraData.pos, cameraData.look, cameraData.up⟩

/-- Source `constructBasisVectors`: w. -/
noncomputable def Camera.m_w (c : Camera) : Vec3 := (-c.m_look.xyz).normalize

/-- Source `constructBasisVectors`: v. -/
noncomputable def Camera.m_v (c : Camera) : Vec3 :=
  (c.m_up.xyz - Vec3.dot c.m_up.xyz c.m_w • c.m_w).normalize

/-- Source `constructBasisVectors`: u. -/
noncomputable def Camera.m_u (c : Camera) : Vec3 := Vec3.cross c.m_v c.m_w

/-- Source `Camera::getCameraMatrix`: columns `(u,0) (v,0) (w,0) m_pos`. -/
noncomputable def Camera.getCameraMatrix (c : Camera) : Mat4 :=
  Matrix.of
    ![![c.m_u.x, c.m_v.x, c.m_w.x, c.m_pos.x],
      ![c.m_u.y, c.m_v.y, c.m_w.y, c.m_pos.y],
      ![c.m_u.z, c.m_v.z, c.m_w.z, c.m_pos.z],
      ![0, 0, 0, c.m_pos.w]]

def Camera.getPos (c : Camera) : Vec3 := c.m_pos.xyz

def Camera.getHeightAngle (c : Camera) : ℝ := c.m_heightAngle

def Camera.getWidthAngle (c : Camera) : ℝ := c.m_widthAngle

/-! ## RayTraceScene (raytracer/raytracescene.h) -/

structure RayTraceScene where
  m_imgWidth : ℕ
  m_imgHeight : ℕ
  m_camera : Camera
  m_primitiveList : List Primitive
  m_lights : List Light
  m_globalData : SceneGlobalData

def RayTraceScene.width (s : RayTraceScene) : ℕ := s.m_imgWidth

def RayTraceScene.height (s : RayTraceScene) : ℕ := s.m_imgHeight

def RayTraceScene.getCamera (s : RayTraceScene) : Camera := s.m_camera

def RayTraceScene.getPrimitives (s : RayTraceScene) : List Primitive := s.m_primitiveList

def RayTraceScene.getLights (s : RayTraceScene) : List Light := s.m_lights

def RayTraceScene.getGlobalData (s : RayTraceScene) : SceneGlobalData := s.m_globalData

/-! ## RayTracer (raytracer/raytracer.h, unnamed raytracer.cpp) -/

/-- Source `RayTracer::Config`: the feature toggles, all defaulting to off. -/
structure Config where
  enableShadow : Bool := false
  enableReflection : Bool := false
  enableRefraction : Bool := false
  enableTextureMap : Bool := false
  enableTextureFilter : Bool := false
  enableParallelism : Bool := false
  enableSuperSample : Bool := false
  enableAcceleration : Bool := false
  enableDepthOfField : Bool := false

/-- Source `m_maxRecursionDepth = 4`. -/
def maxRecursionDepth : ℤ := 4

/-- Placeholder primitive for totalizing `primitives[intersectedPrimitiveIdx]`;
the scan only records indices of scanned primitives, so it is never selected. -/
def defaultPrimitive : Primitive :=
  ⟨PrimitiveShape.sphere 0, 1,
   ⟨⟨0, 0, 0, 0⟩, ⟨0, 0, 0, 0⟩, ⟨0, 0, 0, 0⟩, ⟨0, 0, 0, 0⟩, 0, 0, ⟨false, "", 0, 0⟩⟩,
   ⟨[], 0, 0⟩⟩

/-- In the source, `intersectedPrimitiveIdx` and `objSpaceIntersection` are
declared in `traceRay` without initializers and read in the shading branch.
The `none` arm of the scan result models that uninitialized read with this
marker color; the C9 theorem below proves the arm unreachable whenever the
incoming ray carries `tHit = ⊤`, as at every call site. -/
def uninitializedRead : RGBA := ⟨0, 0, 0, 255⟩

/-- State of the nearest-hit loop of `RayTracer::traceRay`: the world ray's
current `tHit` together with the (initially unassigned) pair
`(intersectedPrimitiveIdx, objSpaceIntersection)`. -/
structure ScanState where
  tHit : WithTop ℝ
  best : Option (ℕ × Vec3)

/-- The object-space ray built inside the loop of `RayTracer::traceRay`:
`Ray(applyInverseCTM(dir, true), applyInverseCTM(origin, false))`. -/
noncomputable def objSpaceRayOf (worldSpaceRay : Ray) (currPrimitive : Primitive) : Ray :=
  ⟨currPrimitive.applyInverseCTM worldSpaceRay.getDir true,
   currPrimitive.applyInverseCTM worldSpaceRay.getOrigin false, ⊤⟩

/-- The intersection parameter a primitive reports for the world ray
(`currPrimitive->getIntersectionT(objSpaceRay)` in the loop). -/
noncomputable def primT (worldSpaceRay : Ray) (currPrimitive : Primitive) : WithTop ℝ :=
  currPrimitive.getIntersectionT (objSpaceRayOf worldSpaceRay currPrimitive)

/-- The object-space intersection point recorded for a hit primitive
(`objSpaceRay.getPos(currT)`). -/
noncomputable def objHitOf (worldSpaceRay : Ray) (currPrimitive : Primitive) : Vec3 :=
  (objSpaceRayOf worldSpaceRay currPrimitive).getPos
    ((primT worldSpaceRay currPrimitive).untop' 0)

/-- One iteration of the nearest-hit loop of `RayTracer::traceRay`:
build the object-space ray, intersect, and record the candidate iff
`currT > 0 && currT < worldSpaceRay.getIntersectionT()`.  (The `⊤` arm is the
`currT = +inf` case, for which `currT < tHit` is false.) -/
noncomputable def scanStep (worldSpaceRay : Ray) (st : ScanState) (i : ℕ)
    (currPrimitive : Primitive) : ScanState :=
  let objSpaceRay : Ray := objSpaceRayOf worldSpaceRay currPrimitive
  match currPrimitive.getIntersectionT objSpaceRay with
  | ⊤ => st
  | (currT : ℝ) =>
      if 0 < currT ∧ (currT : WithTop ℝ) < st.tHit then
        ⟨(currT : WithTop ℝ), some (i, objSpaceRay.getPos currT)⟩
      else st

/-- The indexed `for` loop over the primitive list. -/
noncomputable def scanGo (worldSpaceRay : Ray) (st : ScanState) (i : ℕ) :
    List Primitive → ScanState
  | [] => st
  | p :: rest => scanGo worldSpaceRay (scanStep worldSpaceRay st i p) (i + 1) rest

/-- The complete nearest-hit scan of `RayTracer::traceRay` (lines 76–93):
returns the world ray with its updated `tHit` (the loop mutates the ray
passed by reference) together with the recorded nearest-primitive data. -/
noncomputable def scanPrimitives (primitives : List Primitive) (worldSpaceRay : Ray) :
    Ray × Option (ℕ × Vec3) :=
  let final := scanGo worldSpaceRay ⟨worldSpaceRay.m_tIntersect, none⟩ 0 primitives
  (⟨worldSpaceRay.m_dir, worldSpaceRay.m_pos, final.tHit⟩, final.best)

/-- The effect of the source's shadow probe `traceRay(shadowRay, …, -1)`:
at the sentinel depth the routine only performs the nearest-hit scan,
records it in the ray, and returns a color the caller ignores.  A theorem
below (for claim C3) proves that `traceRay` at depth `-1` is
exactly this scan (plus the ignored black color); `phong` uses this
function for its shadow probes, which also keeps the mutual recursion
well-founded. -/
noncomputable def shadowProbe (primitives : List Primitive) (shadowRay : Ray) : Ray :=
  (scanPrimitives primitives shadowRay).1

mutual

/-- Source `RayTracer::traceRay`: nearest-hit scan, then shading unless the depth is
the shadow-probe sentinel `-1` or there is no hit.  Returns the mutated world
ray (the C++ reference parameter) together with the color. -/
noncomputable def traceRay (primitives : List Primitive) (lights : List Light)
    (globalData : SceneGlobalData) (worldSpaceRay : Ray) (currRecursionDepth : ℤ) :
    Ray × RGBA :=
  let scanned := scanPrimitives primitives worldSpaceRay
  let ray := scanned.1
  if currRecursionDepth ≠ -1 ∧ 0 < ray.getIntersectionT ∧ ray.getIntersectionT < ⊤ then
    match scanned.2 with
    | some (intersectedPrimitiveIdx, objSpaceIntersection) =>
        let prim := primitives.getD intersectedPrimitiveIdx defaultPrimitive
        (ray,
         phong primitives lights ray.getIntersectionPoint
           (prim.getWorldSpaceNormal objSpaceIntersection)
           (-ray.getDir)
           prim.getMaterial
           (prim.getTexture objSpaceIntersection)
           globalData currRecursionDepth)
    | none => (ray, uninitializedRead)
  else (ray, ⟨0, 0, 0, 255⟩)
termination_by ((maxRecursionDepth + 1 - currRecursionDepth).toNat, 1)
decreasing_by
exact Prod.Lex.right _ (by omega)

/-- Source `RayTracer::phong`: ambient term, per-light shadowed diffuse/specular
terms, and one recursive reflection ray while `depth < maxRecursionDepth`. -/
noncomputable def phong (primitives : List Primitive) (lights : List Light)
    (intersectionPosition normal0 directionToCamera0 : Vec3)
    (material : SceneMaterial) (textureColor : SceneColor)
    (globalData : SceneGlobalData) (currRecursionDepth : ℤ) : RGBA :=
  let normal := normal0.normalize
  let directionToCamera := directionToCamera0.normalize
  let ambient : Vec4 := ⟨0, 0, 0, 1⟩ + globalData.ka • material.cAmbient
  let totalIllumination := lights.foldl
    (fun totalIllumination light =>
      let lightData := light.getLightData
      let directionToLight := light.getDirToLight intersectionPosition
      let distToLight : WithTop ℝ :=
        if light.getType = LightType.directional then ⊤
        else ((lightData.pos.xyz - intersectionPosition).length : WithTop ℝ)
      let f_att : ℝ :=
        if light.getType = LightType.directional then 1
        else light.attenuationFn (lightData.pos.xyz - intersectionPosition).length
      -- shadow ray, offset by ε = 0.001 to avoid self-shadowing
      let shadowRayOrigin := intersectionPosition + (1/1000 : ℝ) • directionToLight
      let shadowRayWorldSpace : Ray := ⟨directionToLight, shadowRayOrigin, ⊤⟩
      let probed := shadowProbe primitives shadowRayWorldSpace
      if probed.getIntersectionT < distToLight then totalIllumination
      else
        let NdotL := Vec3.dot normal directionToLight
        if 0 < NdotL then
          let lightColor := light.getColor intersectionPosition
          let diffuseColor :=
            material.blend • textureColor
              + (1 - material.blend) • (globalData.kd • material.cDiffuse)
          let withDiffuse :=
            totalIllumination + (f_att • (lightColor * diffuseColor)) * NdotL
          let reflectedLightDirection := Vec3.reflect (-directionToLight) normal
          let RdotV := max 0 (Vec3.dot reflectedLightDirection directionToCamera)
          withDiffuse
            + (f_att • (lightColor * globalData.ks * material.cSpecular))
              * (RdotV ^ material.shininess)
        else totalIllumination)
    ambient
  let final :=
    if _h : currRecursionDepth < maxRecursionDepth then
      let reflectedViewDirection := Vec3.reflect (-directionToCamera) normal
      -- reflection ray, offset by ε = 0.0001 to avoid self-reflection
      let reflectionRay : Ray :=
        ⟨reflectedViewDirection,
         intersectionPosition + (1/10000 : ℝ) • reflectedViewDirection, ⊤⟩
      let reflectionColor :=
        RGBAtoSceneColor
          (traceRay primitives lights globalData reflectionRay (currRecursionDepth + 1)).2
      totalIllumination + globalData.ks • (material.cReflective * reflectionColor)
    else totalIllumination
  toRGBA final
termination_by ((maxRecursionDepth + 1 - currRecursionDepth).toNat, 0)
decreasing_by
simp_wf
simp only [maxRecursionDepth] at _h ⊢
exact Prod.Lex.left _ _ (by omega)

end

/-! ## Reflection-recursion counters

These two functions mirror, line for line, the recursion structure of
`traceRay`/`phong` above and count how many reflective `traceRay`
invocations the corresponding call performs; parameters that cannot
influence which reflection rays are spawned (lights, material, texture,
global coefficients) are omitted. -/

mutual

noncomputable def traceRayReflections (primitives : List Primitive)
    (worldSpaceRay : Ray) (currRecursionDepth : ℤ) : ℕ :=
  let scanned := scanPrimitives primitives worldSpaceRay
  let ray := scanned.1
  if currRecursionDepth ≠ -1 ∧ 0 < ray.getIntersectionT ∧ ray.getIntersectionT < ⊤ then
    match scanned.2 with
    | some (intersectedPrimitiveIdx, objSpaceIntersection) =>
        let prim := primitives.getD intersectedPrimitiveIdx defaultPrimitive
        phongReflections primitives ray.getIntersectionPoint
          (prim.getWorldSpaceNormal objSpaceIntersection)
          (-ray.getDir) currRecursionDepth
    | none => 0
  else 0
termination_by ((maxRecursionDepth + 1 - currRecursionDepth).toNat, 1)
decreasing_by
exact Prod.Lex.right _ (by omega)

noncomputable def phongReflections (primitives : List Primitive)
    (intersectionPosition normal0 directionToCamera0 : Vec3)
    (currRecursionDepth : ℤ) : ℕ :=
  let normal := normal0.normalize
  let directionToCamera := directionToCamera0.normalize
  if _h : currRecursionDepth < maxRecursionDepth then
    let reflectedViewDirection := Vec3.reflect (-directionToCamera) normal
    let reflectionRay : Ray :=
      ⟨reflectedViewDirection,
       intersectionPosition + (1/10000 : ℝ) • reflectedViewDirection, ⊤⟩
    1 + traceRayReflections primitives reflectionRay (currRecursionDepth + 1)
  else 0
termination_by ((maxRecursionDepth + 1 - currRecursionDepth).toNat, 0)
decreasing_by
simp_wf
simp only [maxRecursionDepth] at _h ⊢
exact Prod.Lex.left _ _ (by omega)

end

/-! ## Pixel loop (RayTracer::render) -/

/-- Source `RayTracer::getViewPlaneCoords`. -/
noncomputable def getViewPlaneCoords (row col : ℕ) (k : ℝ) (scene : RayTraceScene) : Vec3 :=
  let camera := scene.getCamera
  let viewplaneWidth := 2 * k * Real.tan (camera.getWidthAngle / 2)
  let viewplaneHeight := 2 * k * Real.tan (camera.getHeightAngle / 2)
  let xNormalized := ((col : ℝ) + 1/2) / (scene.width : ℝ) - 1/2
  let yNormalized := ((scene.height : ℝ) - (row : ℝ) - 1/2) / (scene.height : ℝ) - 1/2
  ⟨xNormalized * viewplaneWidth, yNormalized * viewplaneHeight, -k⟩

/-- Source `RayTracer::render`: one ray per pixel, row-major output
(`imageData[col + row*width]`).  The `RayTracer` constructor stores the
passed `Config` in `m_config`, which is never read by any member function,
so the body below does not consult `m_config`. -/
noncomputable def render (m_config : Config) (scene : RayTraceScene) : List RGBA :=
  let camera := scene.getCamera
  let m_primitives := scene.getPrimitives
  let m_globalData := scene.getGlobalData
  (List.range scene.height).flatMap fun row =>
    (List.range scene.width).map fun col =>
      let k : ℝ := 1
      let uvk := getViewPlaneCoords row col k scene
      let rayDirCamSpace := uvk
      let rayDirWorldSpace :=
        (camera.getCameraMatrix.applyV4 (Vec4.ofVec3 rayDirCamSpace 0)).xyz
      let ray : Ray := ⟨rayDirWorldSpace, camera.getPos, ⊤⟩
      (traceRay m_primitives scene.getLights m_globalData ray 0).2

/-! ## Concrete fixtures used by the verification theorems below -/

/-- A texture-less material (texture map unused). -/
def testMaterial : SceneMaterial :=
  ⟨⟨0, 0, 0, 0⟩, ⟨0, 0, 0, 0⟩, ⟨0, 0, 0, 0⟩, ⟨0, 0, 0, 0⟩, 0, 0, ⟨false, "", 1, 1⟩⟩

def testTexture : Texture := ⟨[], 0, 0⟩

/-- A unit-radius-0.5 sphere with the identity CTM
(the parameters `RayTraceScene` uses for `PRIMITIVE_SPHERE`). -/
noncomputable def sphereTest : Primitive := ⟨PrimitiveShape.sphere (1/2), 1, testMaterial, testTexture⟩

/-- A cone with base radius 0.5 and height 1
(the parameters `RayTraceScene` uses for `PRIMITIVE_CONE`). -/
noncomputable def coneTest : Primitive := ⟨PrimitiveShape.cone (1/2) 1, 1, testMaterial, testTexture⟩

/-- Object-space ray starting inside the cone at `(0.1, 0, 0)` pointing in
`+x`; the mirrored-nappe quadratic root behind the origin is at `t = -7/20`. -/
noncomputable def rayConeInside : Ray := ⟨⟨1, 0, 0⟩, ⟨1/10, 0, 0⟩, ⊤⟩

/-- World ray from `(0,0,5)` toward `-z` (the spec §8 sphere example). -/
noncomputable def raySphereFront : Ray := ⟨⟨0, 0, -1⟩, ⟨0, 0, 5⟩, ⊤⟩

/-- Object-space ray from `(10, 0, 0)` pointing in `+x`, away from the cone:
both lateral quadratic roots (`-41/4`, `-39/4`) are negative, and the base
plane is parallel to the ray, so no strictly-positive in-bounds intersection
exists. -/
noncomputable def rayConeMiss : Ray := ⟨⟨1, 0, 0⟩, ⟨10, 0, 0⟩, ⊤⟩

/-- An invertible but non-affine CTM (last row `(1,0,0,2)`), constructible
through a raw `TRANSFORMATION_MATRIX` node in a scenefile. -/
noncomputable def cexCTM : Mat4 := !![1, 0, 0, 1; 0, 1, 0, 0; 0, 0, 1, 0; 1, 0, 0, 2]

/-- Its inverse. -/
noncomputable def cexCTMInv : Mat4 := !![2, 0, 0, -1; 0, 1, 0, 0; 0, 0, 1, 0; -1, 0, 0, 1]

/-- A primitive whose transform is invertible but not affine. -/
noncomputable def cexPrimitive : Primitive := ⟨PrimitiveShape.sphere (1/2), cexCTM, testMaterial, testTexture⟩

/-- A primitive with an affine, invertible (diagonal) transform. -/
noncomputable def diagPrimitive : Primitive :=
  ⟨PrimitiveShape.sphere (1/2), Matrix.diagonal ![2, 3, 4, 1], testMaterial, testTexture⟩

/-- A spot light at the origin pointing along `+z`, white, outer cone angle
`π/2`, penumbra `π/3` (inner cone angle `π/6`). -/
noncomputable def spotTestLight : Light :=
  ⟨⟨LightType.spot, ⟨0, 0, 0, 1⟩, ⟨0, 0, 1, 0⟩, ⟨1, 1, 1, 1⟩, ⟨1, 0, 0⟩,
    Real.pi / 2, Real.pi / 3⟩⟩

/-- Query position at angle `π/4` from the spot direction (inside the
penumbra band), at distance `√2` from the light. -/
def spotTestPos : Vec3 := ⟨1, 0, 1⟩

def testGlobalData : SceneGlobalData := ⟨0, 0, 0⟩

def testCamera : Camera := ⟨0, 0, 0, 0, ⟨0, 0, 0, 1⟩, ⟨0, 0, -1, 0⟩, ⟨0, 1, 0, 0⟩⟩

/-- A 1×1 scene with no primitives and no lights. -/
def emptyScene : RayTraceScene := ⟨1, 1, testCamera, [], [], testGlobalData⟩

/-- Two configs agreeing on shadow/reflection, differing on every other flag. -/
def cfgA : Config := ⟨true, true, false, false, false, false, false, false, false⟩

def cfgB : Config := ⟨true, true, true, true, true, true, true, true, true⟩

/-! # Verification theorems -/

/-! ## Small componentwise evaluation lemmas -/

@[simp] theorem vec3_add_components (a b : Vec3) : a + b = ⟨a.x + b.x, a.y + b.y, a.z + b.z⟩ := rfl

@[simp] theorem vec3_neg_components (a : Vec3) : -a = ⟨-a.x, -a.y, -a.z⟩ := rfl

@[simp] theorem vec3_sub_components (a b : Vec3) : a - b = ⟨a.x - b.x, a.y - b.y, a.z - b.z⟩ := rfl

@[simp] theorem vec3_smul_components (c : ℝ) (a : Vec3) : c • a = ⟨c * a.x, c * a.y, c * a.z⟩ := rfl

@[simp] theorem vec4_add_components (a b : Vec4) :
    a + b = ⟨a.x + b.x, a.y + b.y, a.z + b.z, a.w + b.w⟩ := rfl

@[simp] theorem vec4_mul_components (a b : Vec4) :
    a * b = ⟨a.x * b.x, a.y * b.y, a.z * b.z, a.w * b.w⟩ := rfl

@[simp] theorem vec4_smul_components (c : ℝ) (a : Vec4) :
    c • a = ⟨c * a.x, c * a.y, c * a.z, c * a.w⟩ := rfl

@[simp] theorem Vec4.toFn_zero (v : Vec4) : v.toFn 0 = v.x := rfl

@[simp] theorem Vec4.toFn_one (v : Vec4) : v.toFn 1 = v.y := rfl

@[simp] theorem Vec4.toFn_two (v : Vec4) : v.toFn 2 = v.z := rfl

@[simp] theorem Vec4.toFn_three (v : Vec4) : v.toFn 3 = v.w := rfl

/-- Source `applyInverseCTM` of a primitive with the identity CTM is the identity
(both for points and for directions). -/
theorem applyInverseCTM_of_ctm_one (p : Primitive) (h : p.m_CTM = 1) (v : Vec3) (b : Bool) :
    p.applyInverseCTM v b = v := by
  unfold Primitive.applyInverseCTM Primitive.m_inverseCTM
  rw [h, inv_one]
  unfold Mat4.applyV4
  rw [Matrix.one_mulVec]
  cases b <;> rfl

/-! ## C3: shadow-probe sentinel -/

/-- C3: for every world-space ray, primitive list and light list, `traceRay`
at the sentinel depth `-1` still records the nearest intersection in the
ray's `tHit` (it returns exactly the scanned ray) but performs no shading
and no recursion: the returned color is the constant black `(0,0,0,255)`
produced without any call to `phong`. -/
theorem traceRay_shadow_probe (primitives : List Primitive) (lights : List Light)
    (globalData : SceneGlobalData) (worldSpaceRay : Ray) :
    traceRay primitives lights globalData worldSpaceRay (-1) =
      ((scanPrimitives primitives worldSpaceRay).1, ⟨0, 0, 0, 255⟩) := by
  rw [traceRay]
  simp

/-! ## C2: reflection recursion bound -/

theorem phongReflections_le (n : ℕ) : ∀ (d : ℤ), (maxRecursionDepth - d).toNat ≤ n →
    ∀ (primitives : List Primitive) (pos n0 c0 : Vec3),
      phongReflections primitives pos n0 c0 d ≤ (maxRecursionDepth - d).toNat := by
  induction n with
  | zero =>
    intro d hd primitives pos n0 c0
    rw [phongReflections]
    split
    · rename_i h
      exfalso
      simp only [maxRecursionDepth] at h hd
      omega
    · exact Nat.zero_le _
  | succ n ih =>
    intro d hd primitives pos n0 c0
    rw [phongReflections]
    split
    · rename_i h
      have haux : ∀ ray : Ray, traceRayReflections primitives ray (d + 1) ≤
          (maxRecursionDepth - (d + 1)).toNat := by
        intro ray
        rw [traceRayReflections]
        split
        · split
          · exact ih (d + 1) (by simp only [maxRecursionDepth] at *; omega) primitives _ _ _
          · exact Nat.zero_le _
        · exact Nat.zero_le _
      have hstep : 1 + (maxRecursionDepth - (d + 1)).toNat = (maxRecursionDepth - d).toNat := by
        simp only [maxRecursionDepth] at h ⊢
        omega
      calc 1 + traceRayReflections primitives _ (d + 1)
          ≤ 1 + (maxRecursionDepth - (d + 1)).toNat := Nat.add_le_add_left (haux _) 1
        _ = (maxRecursionDepth - d).toNat := hstep
    · exact Nat.zero_le _

/-- C2: for every scene and starting depth `d ≤ maxRecursionDepth = 4`,
`traceRay` performs at most `maxRecursionDepth - d` further reflective
recursions, and `phong` spawns exactly one reflection ray per shading call
when `d < maxRecursionDepth`, recursing via `traceRay` at depth `d + 1`
(and none otherwise), so the reflection recursion terminates. -/
theorem traceRay_reflection_bound (primitives : List Primitive) (worldSpaceRay : Ray)
    (d : ℤ) (hd : d ≤ maxRecursionDepth) :
    traceRayReflections primitives worldSpaceRay d ≤ (maxRecursionDepth - d).toNat ∧
    (∀ pos n0 c0 : Vec3, d < maxRecursionDepth →
      ∃ reflectionRay, phongReflections primitives pos n0 c0 d =
        1 + traceRayReflections primitives reflectionRay (d + 1)) ∧
    (∀ pos n0 c0 : Vec3, ¬d < maxRecursionDepth →
      phongReflections primitives pos n0 c0 d = 0) := by
  refine ⟨?_, ?_, ?_⟩
  · rw [traceRayReflections]
    split
    · split
      · exact phongReflections_le (maxRecursionDepth - d).toNat d le_rfl primitives _ _ _
      · exact Nat.zero_le _
    · exact Nat.zero_le _
  · intro pos n0 c0 h
    rw [phongReflections]
    rw [dif_pos h]
    exact ⟨_, rfl⟩
  · intro pos n0 c0 h
    rw [phongReflections]
    rw [dif_neg h]

/-- Witness for C2 at depth 0 with a concrete scene. -/
theorem traceRay_reflection_bound_witness :
    traceRayReflections [] raySphereFront 0 ≤ (maxRecursionDepth - 0).toNat :=
  (traceRay_reflection_bound [] raySphereFront 0 (by decide)).1

/-! ## The nearest-hit scan: update invariants -/

/-- Each loop iteration either leaves the state unchanged or records a
candidate that passed the guard `currT > 0 && currT < tHit`. -/
theorem scanStep_cases (ray : Ray) (st : ScanState) (i : ℕ) (p : Primitive) :
    scanStep ray st i p = st ∨
    ∃ t : ℝ, primT ray p = (t : WithTop ℝ) ∧ 0 < t ∧ (t : WithTop ℝ) < st.tHit ∧
      scanStep ray st i p = ⟨(t : WithTop ℝ), some (i, (objSpaceRayOf ray p).getPos t)⟩ := by
  unfold scanStep
  cases h : p.getIntersectionT (objSpaceRayOf ray p) with
  | top =>
    left
    simp only [h]
  | coe t =>
    by_cases hc : 0 < t ∧ (t : WithTop ℝ) < st.tHit
    · right
      refine ⟨t, h, hc.1, hc.2, ?_⟩
      simp only [h, if_pos hc]
    · left
      simp only [h, if_neg hc]

theorem scanGo_eq_of_best_none (ray : Ray) :
    ∀ (l : List Primitive) (st : ScanState) (i : ℕ),
      (scanGo ray st i l).best = none → scanGo ray st i l = st := by
  intro l
  induction l with
  | nil => intro st i _; rfl
  | cons p rest ih =>
    intro st i h
    rw [scanGo] at h ⊢
    have h2 := ih (scanStep ray st i p) (i + 1) h
    rw [h2] at h ⊢
    rcases scanStep_cases ray st i p with heq | ⟨t, _, _, _, heq⟩
    · exact heq
    · rw [heq] at h
      simp at h

theorem scanStep_tHit_le (ray : Ray) (st : ScanState) (i : ℕ) (p : Primitive) :
    (scanStep ray st i p).tHit ≤ st.tHit := by
  rcases scanStep_cases ray st i p with heq | ⟨t, _, _, hlt, heq⟩
  · rw [heq]
  · rw [heq]
    exact le_of_lt hlt

theorem scanGo_tHit_le (ray : Ray) :
    ∀ (l : List Primitive) (st : ScanState) (i : ℕ),
      (scanGo ray st i l).tHit ≤ st.tHit := by
  intro l
  induction l with
  | nil => intro st i; exact le_rfl
  | cons p rest ih =>
    intro st i
    rw [scanGo]
    exact le_trans (ih (scanStep ray st i p) (i + 1)) (scanStep_tHit_le ray st i p)

theorem scanGo_tHit_pos_of_ne (ray : Ray) :
    ∀ (l : List Primitive) (st : ScanState) (i : ℕ),
      (scanGo ray st i l).tHit ≠ st.tHit → 0 < (scanGo ray st i l).tHit := by
  intro l
  induction l with
  | nil => intro st i h; exact absurd rfl h
  | cons p rest ih =>
    intro st i h
    rw [scanGo] at h ⊢
    by_cases h1 : (scanGo ray (scanStep ray st i p) (i + 1) rest).tHit =
        (scanStep ray st i p).tHit
    · rw [h1] at h ⊢
      rcases scanStep_cases ray st i p with heq | ⟨t, _, ht, _, heq⟩
      · rw [heq] at h
        exact absurd rfl h
      · rw [heq]
        show (0 : WithTop ℝ) < ((t : ℝ) : WithTop ℝ)
        exact_mod_cast ht
    · exact ih (scanStep ray st i p) (i + 1) h1

/-- C4: in `traceRay`'s nearest-hit scan the ray's `tHit` is mutated only to
values that are strictly positive and strictly below its current value
(third conjunct, per iteration), hence over the whole scan `tHit` is
non-increasing (fourth) and strictly positive once it has been changed at
all, so never negative once an intersection is recorded (fifth); the ray's
direction and origin are never mutated (first two conjuncts). -/
theorem scan_tHit_invariants (primitives : List Primitive) (worldSpaceRay : Ray) :
    (scanPrimitives primitives worldSpaceRay).1.m_dir = worldSpaceRay.m_dir ∧
    (scanPrimitives primitives worldSpaceRay).1.m_pos = worldSpaceRay.m_pos ∧
    (∀ (st : ScanState) (i : ℕ) (p : Primitive),
      scanStep worldSpaceRay st i p = st ∨
        (0 < (scanStep worldSpaceRay st i p).tHit ∧
          (scanStep worldSpaceRay st i p).tHit < st.tHit)) ∧
    (scanPrimitives primitives worldSpaceRay).1.m_tIntersect ≤ worldSpaceRay.m_tIntersect ∧
    ((scanPrimitives primitives worldSpaceRay).1.m_tIntersect ≠ worldSpaceRay.m_tIntersect →
      0 < (scanPrimitives primitives worldSpaceRay).1.m_tIntersect) := by
  refine ⟨rfl, rfl, ?_, ?_, ?_⟩
  · intro st i p
    rcases scanStep_cases worldSpaceRay st i p with heq | ⟨t, _, ht, hlt, heq⟩
    · exact Or.inl heq
    · refine Or.inr ⟨?_, ?_⟩
      · rw [heq]
        show (0 : WithTop ℝ) < ((t : ℝ) : WithTop ℝ)
        exact_mod_cast ht
      · rw [heq]
        exact hlt
  · exact scanGo_tHit_le worldSpaceRay primitives ⟨worldSpaceRay.m_tIntersect, none⟩ 0
  · exact scanGo_tHit_pos_of_ne worldSpaceRay primitives ⟨worldSpaceRay.m_tIntersect, none⟩ 0

/-- C9: whenever the incoming ray carries `tHit = ⊤` (as at every call site,
where rays are freshly constructed), the shading branch of `traceRay` — which
requires `0 < tHit < ∞` — can only be reached with the nearest-hit data
assigned: the scan's recorded `(index, object-space point)` option is `some`,
so `traceRay` never takes the uninitialized-read arm. -/
theorem scan_no_uninit_read (primitives : List Primitive) (worldSpaceRay : Ray)
    (hfresh : worldSpaceRay.m_tIntersect = ⊤)
    (hhit : (scanPrimitives primitives worldSpaceRay).1.m_tIntersect < ⊤) :
    ∃ i pt, (scanPrimitives primitives worldSpaceRay).2 = some (i, pt) := by
  unfold scanPrimitives at hhit ⊢
  cases hb : (scanGo worldSpaceRay ⟨worldSpaceRay.m_tIntersect, none⟩ 0 primitives).best with
  | none =>
    exfalso
    have := scanGo_eq_of_best_none worldSpaceRay primitives
      ⟨worldSpaceRay.m_tIntersect, none⟩ 0 hb
    rw [this] at hhit
    simp only [hfresh] at hhit
    exact absurd hhit (lt_irrefl ⊤)
  | some v =>
    exact ⟨v.1, v.2, by simp [hb]⟩

/-! ## Concrete evaluation of the spec §8 sphere example -/

/-- Source `solveQuadratic` evaluated when the discriminant is the square of `s`. -/
theorem solveQuadratic_eval (A B C s : ℝ) (hA : A ≠ 0) (hs : 0 ≤ s)
    (hD : B ^ 2 - 4 * A * C = s ^ 2) :
    solveQuadratic A B C =
      if 0 < (-B - s) / (2 * A) ∧ (-B - s) / (2 * A) < (-B + s) / (2 * A)
      then (((-B - s) / (2 * A) : ℝ) : WithTop ℝ)
      else if 0 < (-B + s) / (2 * A) ∧ (-B + s) / (2 * A) < (-B - s) / (2 * A)
      then (((-B + s) / (2 * A) : ℝ) : WithTop ℝ)
      else ⊤ := by
  unfold solveQuadratic
  rw [if_neg hA]
  simp only [hD, Real.sqrt_sq hs, if_pos (sq_nonneg s)]

theorem sphere_front_eval :
    sphereGetIntersectionT (1/2) ⟨⟨0, 0, -1⟩, ⟨0, 0, 5⟩, ⊤⟩ = ((9/2 : ℝ) : WithTop ℝ) := by
  have h : sphereGetIntersectionT (1/2) ⟨⟨0, 0, -1⟩, ⟨0, 0, 5⟩, ⊤⟩ =
      solveQuadratic 1 (-10) (99/4) := by
    unfold sphereGetIntersectionT
    norm_num [Ray.getDir, Ray.getOrigin]
  rw [h, solveQuadratic_eval 1 (-10) (99/4) 1 one_ne_zero zero_le_one (by norm_num)]
  norm_num

theorem objRay_sphereTest : objSpaceRayOf raySphereFront sphereTest =
    ⟨⟨0, 0, -1⟩, ⟨0, 0, 5⟩, ⊤⟩ := by
  unfold objSpaceRayOf
  rw [applyInverseCTM_of_ctm_one sphereTest rfl, applyInverseCTM_of_ctm_one sphereTest rfl]
  rfl

theorem primT_sphereTest : primT raySphereFront sphereTest = ((9/2 : ℝ) : WithTop ℝ) := by
  unfold primT Primitive.getIntersectionT
  rw [objRay_sphereTest]
  exact sphere_front_eval

theorem scanPrimitives_sphereTest :
    scanPrimitives [sphereTest] raySphereFront =
      (⟨⟨0, 0, -1⟩, ⟨0, 0, 5⟩, ((9/2 : ℝ) : WithTop ℝ)⟩, some (0, ⟨0, 0, 1/2⟩)) := by
  have hT : sphereTest.getIntersectionT (objSpaceRayOf raySphereFront sphereTest) =
      ((9/2 : ℝ) : WithTop ℝ) := primT_sphereTest
  have hstep : scanStep raySphereFront ⟨raySphereFront.m_tIntersect, none⟩ 0 sphereTest =
      ⟨((9/2 : ℝ) : WithTop ℝ), some (0, ⟨0, 0, 1/2⟩)⟩ := by
    unfold scanStep
    simp only [hT]
    rw [if_pos ⟨by norm_num, by exact_mod_cast WithTop.coe_lt_top (9/2 : ℝ)⟩]
    rw [objRay_sphereTest]
    simp [Ray.getPos]
    norm_num
  unfold scanPrimitives
  rw [scanGo, scanGo, hstep]
  rfl

/-- Witness for C4: a sphere in front of the ray updates `tHit` from `⊤` to
`9/2`, which is non-increasing and strictly positive. -/
theorem scan_tHit_invariants_witness :
    (scanPrimitives [sphereTest] raySphereFront).1.m_tIntersect ≤
      raySphereFront.m_tIntersect ∧
    0 < (scanPrimitives [sphereTest] raySphereFront).1.m_tIntersect := by
  refine ⟨(scan_tHit_invariants [sphereTest] raySphereFront).2.2.2.1, ?_⟩
  apply (scan_tHit_invariants [sphereTest] raySphereFront).2.2.2.2
  rw [scanPrimitives_sphereTest]
  exact WithTop.coe_ne_top

/-- Witness for C9: the same concrete hit yields a recorded `some` pair. -/
theorem scan_no_uninit_read_witness :
    ∃ i pt, (scanPrimitives [sphereTest] raySphereFront).2 = some (i, pt) :=
  scan_no_uninit_read [sphereTest] raySphereFront rfl
    (by rw [scanPrimitives_sphereTest]; exact WithTop.coe_lt_top _)

/-! ## C1: the cone intersection can return a negative parameter -/

theorem solveQuadraticBoth_eval (A B C s : ℝ) (hA : A ≠ 0) (hs : 0 ≤ s)
    (hD : B ^ 2 - 4 * A * C = s ^ 2) :
    solveQuadraticBothSolutions A B C =
      ((((-B - s) / (2 * A) : ℝ) : WithTop ℝ), (((-B + s) / (2 * A) : ℝ) : WithTop ℝ)) := by
  unfold solveQuadraticBothSolutions
  rw [if_neg hA]
  simp only [hD, Real.sqrt_sq hs, if_pos (sq_nonneg s)]

theorem cone_inside_eval :
    coneGetIntersectionT (1/2) 1 rayConeInside = ((-7/20 : ℝ) : WithTop ℝ) := by
  have hBoth : solveQuadraticBothSolutions 1 (1/5) (-(21/400)) =
      (((-7/20 : ℝ) : WithTop ℝ), ((3/20 : ℝ) : WithTop ℝ)) := by
    rw [solveQuadraticBoth_eval 1 (1/5) (-(21/400)) (1/2) one_ne_zero (by norm_num)
      (by norm_num)]
    norm_num
  unfold coneGetIntersectionT rayConeInside
  norm_num [Ray.getDir, Ray.getOrigin, Ray.getPos]
  rw [hBoth]
  norm_num [getSmallest]
  exact_mod_cast (by norm_num : (-(7/20) : ℝ) ≤ 3/20)

/-- C1: for the cone, `getIntersectionT` does NOT discard roots ≤ 0: for the
object-space ray with origin `(0.1, 0, 0)` (inside the double-napped cone)
and direction `(1, 0, 0)`, both lateral quadratic roots `-7/20` and `3/20`
pass the height-bound check, no positivity check is applied, and the
returned "smallest" candidate is the negative `-7/20` — where the claim
(and the function's own doc comment) require the smallest strictly-positive
root `3/20`. -/
theorem cone_negative_t :
    Primitive.getIntersectionT coneTest rayConeInside = ((-7/20 : ℝ) : WithTop ℝ) ∧
    ((-7/20 : ℝ) : WithTop ℝ) < 0 := by
  constructor
  · exact cone_inside_eval
  · exact_mod_cast (by norm_num : (-7/20 : ℝ) < 0)

/-! ## C10: the scan keeps the first primitive attaining the minimal valid t -/

/-- Sharper three-way case analysis of one scan iteration. -/
theorem scanStep_trichotomy (ray : Ray) (st : ScanState) (i : ℕ) (p : Primitive) :
    (primT ray p = ⊤ ∧ scanStep ray st i p = st) ∨
    (∃ t : ℝ, primT ray p = (t : WithTop ℝ) ∧ ¬(0 < t ∧ (t : WithTop ℝ) < st.tHit) ∧
      scanStep ray st i p = st) ∨
    (∃ t : ℝ, primT ray p = (t : WithTop ℝ) ∧ 0 < t ∧ (t : WithTop ℝ) < st.tHit ∧
      scanStep ray st i p = ⟨(t : WithTop ℝ), some (i, (objSpaceRayOf ray p).getPos t)⟩) := by
  unfold scanStep
  cases h : p.getIntersectionT (objSpaceRayOf ray p) with
  | top => exact Or.inl ⟨h, by simp only [h]⟩
  | coe t =>
    by_cases hc : 0 < t ∧ (t : WithTop ℝ) < st.tHit
    · exact Or.inr (Or.inr ⟨t, h, hc.1, hc.2, by simp only [h, if_pos hc]⟩)
    · exact Or.inr (Or.inl ⟨t, h, hc, by simp only [h, if_neg hc]⟩)

theorem scanGo_append (ray : Ray) (a : Primitive) :
    ∀ (l : List Primitive) (st : ScanState) (i : ℕ),
      scanGo ray st i (l ++ [a]) = scanStep ray (scanGo ray st i l) (i + l.length) a := by
  intro l
  induction l with
  | nil =>
    intro st i
    simp [scanGo]
  | cons p rest ih =>
    intro st i
    rw [List.cons_append, scanGo, ih, scanGo]
    have h : i + 1 + rest.length = i + (p :: rest).length := by
      simp
      omega
    rw [h]

/-- The scan from the fresh state computes the first argmin of the valid
(t > 0, below the running `tHit`) intersection parameters. -/
theorem scanGo_argmin (ray : Ray) (prims : List Primitive) :
    ((scanGo ray ⟨⊤, none⟩ 0 prims).best = none →
      (scanGo ray ⟨⊤, none⟩ 0 prims).tHit = ⊤ ∧
      ∀ (j : ℕ) (q : Primitive), prims[j]? = some q →
        ¬((0 : WithTop ℝ) < primT ray q ∧ primT ray q < ⊤)) ∧
    (∀ i pt, (scanGo ray ⟨⊤, none⟩ 0 prims).best = some (i, pt) →
      ∃ p, prims[i]? = some p ∧
        (0 : WithTop ℝ) < primT ray p ∧ primT ray p < ⊤ ∧
        (scanGo ray ⟨⊤, none⟩ 0 prims).tHit = primT ray p ∧
        pt = objHitOf ray p ∧
        ∀ (j : ℕ) (q : Primitive), prims[j]? = some q → (0 : WithTop ℝ) < primT ray q →
          primT ray p ≤ primT ray q ∧ (j < i → primT ray p < primT ray q)) := by
  induction prims using List.reverseRecOn with
  | nil =>
    constructor
    · intro _
      refine ⟨rfl, ?_⟩
      intro j q hj
      simp at hj
    · intro i pt h
      simp [scanGo] at h
  | append_singleton l a ih =>
    rw [scanGo_append ray a l ⟨⊤, none⟩ 0]
    simp only [Nat.zero_add]
    rcases scanStep_trichotomy ray (scanGo ray ⟨⊤, none⟩ 0 l) l.length a with
      ⟨hT, heq⟩ | ⟨t, hT, hng, heq⟩ | ⟨t, hT, ht0, htlt, heq⟩
    · -- the last primitive reports +infinity: state unchanged
      rw [heq]
      constructor
      · intro hnone
        obtain ⟨htop, hall⟩ := ih.1 hnone
        refine ⟨htop, ?_⟩
        intro j q hj
        rintro ⟨h1, h2⟩
        by_cases hjl : j < l.length
        · exact hall j q (by rwa [List.getElem?_append_left hjl] at hj) ⟨h1, h2⟩
        · have hlen : j < l.length + 1 := by
            have := (List.getElem?_eq_some.mp hj).1
            simpa using this
          have hj_eq : j = l.length := by omega
          subst hj_eq
          rw [List.getElem?_concat_length] at hj
          obtain rfl : a = q := by injection hj
          rw [hT] at h2
          exact absurd h2 (lt_irrefl ⊤)
      · intro i pt hbest
        obtain ⟨p, hip, hp0, hptop, hthit, hpt, hmin⟩ := ih.2 i pt hbest
        have hil : i < l.length := by
          have := (List.getElem?_eq_some.mp hip).1
          simpa using this
        refine ⟨p, by rwa [List.getElem?_append_left hil], hp0, hptop, hthit, hpt, ?_⟩
        intro j q hj hq0
        by_cases hjl : j < l.length
        · exact hmin j q (by rwa [List.getElem?_append_left hjl] at hj) hq0
        · have hlen : j < l.length + 1 := by
            have := (List.getElem?_eq_some.mp hj).1
            simpa using this
          have hj_eq : j = l.length := by omega
          subst hj_eq
          rw [List.getElem?_concat_length] at hj
          obtain rfl : a = q := by injection hj
          constructor
          · rw [hT]
            exact le_top
          · intro hji
            exact absurd hji (by omega)
    · -- finite t but the guard `t > 0 && t < tHit` fails: state unchanged
      rw [heq]
      constructor
      · intro hnone
        obtain ⟨htop, hall⟩ := ih.1 hnone
        refine ⟨htop, ?_⟩
        intro j q hj
        rintro ⟨h1, h2⟩
        by_cases hjl : j < l.length
        · exact hall j q (by rwa [List.getElem?_append_left hjl] at hj) ⟨h1, h2⟩
        · have hlen : j < l.length + 1 := by
            have := (List.getElem?_eq_some.mp hj).1
            simpa using this
          have hj_eq : j = l.length := by omega
          subst hj_eq
          rw [List.getElem?_concat_length] at hj
          obtain rfl : a = q := by injection hj
          rw [hT] at h1
          have h1' : (0 : ℝ) < t := by exact_mod_cast h1
          exact hng ⟨h1', by rw [htop]; exact WithTop.coe_lt_top t⟩
      · intro i pt hbest
        obtain ⟨p, hip, hp0, hptop, hthit, hpt, hmin⟩ := ih.2 i pt hbest
        have hil : i < l.length := by
          have := (List.getElem?_eq_some.mp hip).1
          simpa using this
        refine ⟨p, by rwa [List.getElem?_append_left hil], hp0, hptop, hthit, hpt, ?_⟩
        intro j q hj hq0
        by_cases hjl : j < l.length
        · exact hmin j q (by rwa [List.getElem?_append_left hjl] at hj) hq0
        · have hlen : j < l.length + 1 := by
            have := (List.getElem?_eq_some.mp hj).1
            simpa using this
          have hj_eq : j = l.length := by omega
          subst hj_eq
          rw [List.getElem?_concat_length] at hj
          obtain rfl : a = q := by injection hj
          rw [hT] at hq0 ⊢
          have ht0' : (0 : ℝ) < t := by exact_mod_cast hq0
          constructor
          · by_contra hlt
            push_neg at hlt
            exact hng ⟨ht0', by rw [hthit]; exact hlt⟩
          · intro hji
            exact absurd hji (by omega)
    · -- the guard passes: the last primitive is recorded
      rw [heq]
      constructor
      · intro hnone
        simp at hnone
      · intro i pt hbest
        have hbest' : (l.length, (objSpaceRayOf ray a).getPos t) = (i, pt) := by
          injection hbest
        rw [Prod.mk.injEq] at hbest'
        obtain ⟨rfl, rfl⟩ := hbest'
        refine ⟨a, List.getElem?_concat_length l a, ?_, ?_, ?_, ?_, ?_⟩
        · rw [hT]
          exact_mod_cast ht0
        · rw [hT]
          exact WithTop.coe_lt_top t
        · rw [hT]
        · unfold objHitOf
          rw [hT, WithTop.untop'_coe]
        · intro j q hj hq0
          by_cases hjl : j < l.length
          · have hj' : l[j]? = some q := by rwa [List.getElem?_append_left hjl] at hj
            cases hbn : (scanGo ray ⟨⊤, none⟩ 0 l).best with
            | none =>
              obtain ⟨htop, hall⟩ := ih.1 hbn
              have hnq := hall j q hj'
              have hqtop : primT ray q = ⊤ := by
                by_contra hne
                exact hnq ⟨hq0, lt_top_iff_ne_top.mpr hne⟩
              constructor
              · rw [hT, hqtop]
                exact le_top
              · intro _
                rw [hT, hqtop]
                exact WithTop.coe_lt_top t
            | some v =>
              obtain ⟨p', hip', hp0', hptop', hthit', hpt', hmin'⟩ :=
                ih.2 v.1 v.2 (by rw [hbn])
              have hle : primT ray p' ≤ primT ray q := (hmin' j q hj' hq0).1
              have hstrict : (t : WithTop ℝ) < primT ray p' := by
                rw [← hthit']
                exact htlt
              constructor
              · rw [hT]
                exact le_of_lt (lt_of_lt_of_le hstrict hle)
              · intro _
                rw [hT]
                exact lt_of_lt_of_le hstrict hle
          · have hlen : j < l.length + 1 := by
              have := (List.getElem?_eq_some.mp hj).1
              simpa using this
            have hj_eq : j = l.length := by omega
            subst hj_eq
            rw [List.getElem?_concat_length] at hj
            obtain rfl : a = q := by injection hj
            exact ⟨le_rfl, fun hji => absurd hji (by omega)⟩

/-- C10: the update condition of `traceRay`'s nearest-hit scan is strict
(`currT > 0 && currT < tHit`), so for a freshly constructed ray the recorded
primitive index `i` attains the minimal valid intersection parameter, and
every *earlier* primitive with a valid parameter has a strictly larger one:
when two primitives tie at the winning t, the one earlier in the ordered
list is the one whose index (hence normal, material and texture in
`traceRay`'s shading branch) is kept.  The result is a function of the
primitive list, so it is determined by the list order. -/
theorem scan_first_argmin (primitives : List Primitive) (worldSpaceRay : Ray)
    (hfresh : worldSpaceRay.m_tIntersect = ⊤) (i : ℕ) (pt : Vec3)
    (hbest : (scanPrimitives primitives worldSpaceRay).2 = some (i, pt)) :
    ∃ p, primitives[i]? = some p ∧
      (0 : WithTop ℝ) < primT worldSpaceRay p ∧ primT worldSpaceRay p < ⊤ ∧
      (scanPrimitives primitives worldSpaceRay).1.m_tIntersect = primT worldSpaceRay p ∧
      pt = objHitOf worldSpaceRay p ∧
      ∀ (j : ℕ) (q : Primitive), primitives[j]? = some q → (0 : WithTop ℝ) < primT worldSpaceRay q →
        primT worldSpaceRay p ≤ primT worldSpaceRay q ∧
        (j < i → primT worldSpaceRay p < primT worldSpaceRay q) := by
  unfold scanPrimitives at hbest ⊢
  rw [hfresh] at hbest ⊢
  exact (scanGo_argmin worldSpaceRay primitives).2 i pt hbest

/-- Witness for C10 at the concrete sphere scene. -/
theorem scan_first_argmin_witness :
    ∃ p, ([sphereTest])[0]? = some p ∧
      (0 : WithTop ℝ) < primT raySphereFront p ∧ primT raySphereFront p < ⊤ ∧
      (scanPrimitives [sphereTest] raySphereFront).1.m_tIntersect = primT raySphereFront p ∧
      (⟨0, 0, 1/2⟩ : Vec3) = objHitOf raySphereFront p ∧
      ∀ (j : ℕ) (q : Primitive), ([sphereTest])[j]? = some q → (0 : WithTop ℝ) < primT raySphereFront q →
        primT raySphereFront p ≤ primT raySphereFront q ∧
        (j < 0 → primT raySphereFront p < primT raySphereFront q) :=
  scan_first_argmin [sphereTest] raySphereFront rfl 0 ⟨0, 0, 1/2⟩
    (by rw [scanPrimitives_sphereTest])

/-! ## C6: the stored Config never influences the output -/

/-- C6: `render` produces identical pixel buffers for any two configs that
agree on `enableShadow` and `enableReflection` (in this version the stored
`m_config` is not consulted anywhere, so the flags have no effect at all —
in particular the remaining seven flags are accepted but ignored). -/
theorem render_config_independent (c1 c2 : Config) (scene : RayTraceScene)
    (hshadow : c1.enableShadow = c2.enableShadow)
    (hreflection : c1.enableReflection = c2.enableReflection) :
    render c1 scene = render c2 scene := rfl

/-- Witness for C6: two configs differing in all placeholder flags. -/
theorem render_config_independent_witness :
    render cfgA emptyScene = render cfgB emptyScene :=
  render_config_independent cfgA cfgB emptyScene rfl rfl

/-! ## C5: CTM round trip -/

theorem cexCTM_inv : cexCTM⁻¹ = cexCTMInv := by
  apply Matrix.inv_eq_right_inv
  ext i j
  fin_cases i <;> fin_cases j <;>
    simp [cexCTM, cexCTMInv, Matrix.mul_apply, Fin.sum_univ_four,
      Matrix.vecHead, Matrix.vecTail] <;> norm_num

/-- C5 counterexample: for the invertible but non-affine transform `cexCTM`
(its last row is `(1,0,0,2)`, reachable through a raw matrix node in the
scene graph), converting the point `(0,0,0)` to world space and back does
not return the point: `applyCTM` drops the homogeneous coordinate `w = 2`
and `applyInverseCTM` re-appends `w = 1`, landing on `(1,0,0)` instead. -/
theorem ctm_roundtrip_cex :
    cexPrimitive.applyInverseCTM (cexPrimitive.applyCTM ⟨0, 0, 0⟩ false) false =
      (⟨1, 0, 0⟩ : Vec3) ∧
    cexPrimitive.applyInverseCTM (cexPrimitive.applyCTM ⟨0, 0, 0⟩ false) false ≠
      (⟨0, 0, 0⟩ : Vec3) := by
  have h1 : cexPrimitive.applyCTM ⟨0, 0, 0⟩ false = ⟨1, 0, 0⟩ := by
    unfold Primitive.applyCTM cexPrimitive Mat4.applyV4
    simp only [Bool.false_eq_true, if_false]
    norm_num [cexCTM, Matrix.mulVec, Matrix.dotProduct, Fin.sum_univ_four,
      Vec4.ofVec3, Vec4.ofFn, Vec4.xyz, Vec4.toFn]
  have h2 : cexPrimitive.applyInverseCTM ⟨1, 0, 0⟩ false = ⟨1, 0, 0⟩ := by
    unfold Primitive.applyInverseCTM Primitive.m_inverseCTM Mat4.applyV4
    have hM : cexPrimitive.m_CTM = cexCTM := rfl
    rw [hM, cexCTM_inv]
    simp only [Bool.false_eq_true, if_false]
    norm_num [cexCTMInv, Matrix.mulVec, Matrix.dotProduct, Fin.sum_univ_four,
      Vec4.ofVec3, Vec4.ofFn, Vec4.xyz, Vec4.toFn]
  refine ⟨by rw [h1, h2], by rw [h1, h2]; intro h; injection h with hx; norm_num at hx⟩

/-- C5 amended: for every primitive whose transform is invertible *and
affine* (last row `(0,0,0,1)`, as produced by the scene graph's
translate/rotate/scale chain), world→object after object→world is the
identity for points and for direction vectors, exactly, over exact
arithmetic. -/
theorem ctm_roundtrip_affine (p : Primitive) (hdet : IsUnit p.m_CTM.det)
    (haff : p.m_CTM 3 = ![0, 0, 0, 1]) (v : Vec3) (b : Bool) :
    p.applyInverseCTM (p.applyCTM v b) b = v := by
  unfold Primitive.applyCTM Primitive.applyInverseCTM Primitive.m_inverseCTM Mat4.applyV4
  have htf : ∀ f : Fin 4 → ℝ, (Vec4.ofFn f).toFn = f := by
    intro f
    funext i
    fin_cases i <;> rfl
  have hw4 : ∀ w : ℝ, (p.m_CTM.mulVec (Vec4.ofVec3 v w).toFn) 3 = w := by
    intro w
    show Matrix.dotProduct (p.m_CTM 3) (Vec4.ofVec3 v w).toFn = w
    rw [haff]
    simp [Matrix.dotProduct, Fin.sum_univ_four, Vec4.ofVec3, Vec4.toFn]
  have hofVec : ∀ w : ℝ,
      Vec4.ofVec3 ((Vec4.ofFn (p.m_CTM.mulVec (Vec4.ofVec3 v w).toFn)).xyz) w =
        Vec4.ofFn (p.m_CTM.mulVec (Vec4.ofVec3 v w).toFn) := by
    intro w
    unfold Vec4.ofVec3 Vec4.xyz Vec4.ofFn
    simp only [Vec4.mk.injEq, true_and]
    exact (hw4 w).symm
  rw [hofVec, htf, Matrix.mulVec_mulVec, Matrix.nonsing_inv_mul _ hdet, Matrix.one_mulVec]
  cases b <;> rfl

/-- Witness for C5 with a concrete affine diagonal transform, one point and
one direction. -/
theorem ctm_roundtrip_affine_witness :
    diagPrimitive.applyInverseCTM (diagPrimitive.applyCTM ⟨5, 7, 9⟩ false) false =
      (⟨5, 7, 9⟩ : Vec3) ∧
    diagPrimitive.applyInverseCTM (diagPrimitive.applyCTM ⟨1, 2, 3⟩ true) true =
      (⟨1, 2, 3⟩ : Vec3) := by
  have hdet : IsUnit diagPrimitive.m_CTM.det := by
    have hM : diagPrimitive.m_CTM = Matrix.diagonal ![2, 3, 4, 1] := rfl
    rw [hM]
    simp [Matrix.det_diagonal, Fin.prod_univ_four]
  have haff : diagPrimitive.m_CTM 3 = ![0, 0, 0, 1] := by
    have hM : diagPrimitive.m_CTM = Matrix.diagonal ![2, 3, 4, 1] := rfl
    rw [hM]
    funext j
    fin_cases j <;> simp [Matrix.diagonal]
  exact ⟨ctm_roundtrip_affine diagPrimitive hdet haff ⟨5, 7, 9⟩ false,
    ctm_roundtrip_affine diagPrimitive hdet haff ⟨1, 2, 3⟩ true⟩

/-! ## C7: spot light color -/

theorem spotTest_components :
    spotTestLight.m_lightData.type = LightType.spot ∧
    spotTestLight.m_lightData.pos.xyz = (⟨0, 0, 0⟩ : Vec3) ∧
    spotTestLight.m_lightData.dir.xyz = (⟨0, 0, 1⟩ : Vec3) ∧
    spotTestLight.m_lightData.angle = Real.pi / 2 ∧
    spotTestLight.m_lightData.penumbra = Real.pi / 3 ∧
    spotTestLight.m_lightData.color = (⟨1, 1, 1, 1⟩ : Vec4) :=
  ⟨rfl, rfl, rfl, rfl, rfl, rfl⟩

theorem normalize_unitZ : Vec3.normalize ⟨0, 0, 1⟩ = ⟨0, 0, 1⟩ := by
  unfold Vec3.normalize Vec3.length
  norm_num [Vec3.dot, Real.sqrt_one]

theorem spotTest_dist_eval :
    (spotTestPos - spotTestLight.m_lightData.pos.xyz).length = Real.sqrt 2 := by
  rw [spotTest_components.2.1]
  unfold spotTestPos Vec3.length
  norm_num [Vec3.dot]

theorem sqrt_two_ne_zero : Real.sqrt 2 ≠ 0 :=
  (Real.sqrt_pos.mpr (by norm_num)).ne'

theorem spotTest_theta_eval :
    Real.arccos (Vec3.dot (spotTestPos - spotTestLight.m_lightData.pos.xyz)
        (spotTestLight.m_lightData.dir.xyz.normalize) / Real.sqrt 2) = Real.pi / 4 := by
  rw [spotTest_components.2.1, spotTest_components.2.2.1, normalize_unitZ]
  have hdot : Vec3.dot (spotTestPos - ⟨0, 0, 0⟩) ⟨0, 0, 1⟩ = 1 := by
    norm_num [spotTestPos, Vec3.dot]
  rw [hdot]
  have hr : (1 : ℝ) / Real.sqrt 2 = Real.sqrt 2 / 2 := by
    rw [div_eq_div_iff sqrt_two_ne_zero two_ne_zero, one_mul,
      Real.mul_self_sqrt (by norm_num)]
  rw [hr, ← Real.cos_pi_div_four]
  exact Real.arccos_cos (by positivity) (by linarith [Real.pi_pos])

theorem spotTest_theta_eval_orig :
    Real.arccos (Vec3.dot (spotTestPos - spotTestLight.m_lightData.pos.xyz)
        (spotTestLight.m_lightData.dir.xyz.normalize) /
      (spotTestPos - spotTestLight.m_lightData.pos.xyz).length) = Real.pi / 4 := by
  rw [spotTest_dist_eval]
  exact spotTest_theta_eval

theorem spotTest_fall_eval : spotTestLight.smoothFallOff (Real.pi / 4) = 5/32 := by
  unfold Light.smoothFallOff
  rw [if_neg (not_ne_iff.mpr spotTest_components.1)]
  simp only [spotTest_components.2.2.2.1, spotTest_components.2.2.2.2.1]
  have hx : (Real.pi / 4 - (Real.pi / 2 - Real.pi / 3)) /
      (Real.pi / 2 - (Real.pi / 2 - Real.pi / 3)) = 1/4 := by
    have h1 : Real.pi / 2 - (Real.pi / 2 - Real.pi / 3) = Real.pi / 3 := by ring
    have h2 : Real.pi / 4 - (Real.pi / 2 - Real.pi / 3) = Real.pi / 12 := by ring
    rw [h1, h2, div_eq_div_iff (by positivity) (by norm_num : (4:ℝ) ≠ 0)]
    ring
  rw [hx]
  norm_num

/-- Full concrete evaluation of `Light::getColor` inside the penumbra band:
at angle `θ = π/4` with inner cone `π/6` and outer cone `π/2` the normalized
offset is `x = 1/4`, the ease is `-2x³+3x² = 5/32`, and the code returns the
color scaled by `1 - 5/32 = 27/32` (not by `5/32`). -/
theorem spot_band_eval :
    Light.getColor spotTestLight spotTestPos = ⟨27/32, 27/32, 27/32, 1⟩ := by
  unfold Light.getColor
  rw [if_pos spotTest_components.1]
  simp only [spotTest_dist_eval, spotTest_theta_eval]
  rw [if_neg sqrt_two_ne_zero]
  rw [if_neg (show ¬Real.pi / 4 > spotTestLight.m_lightData.angle by
    rw [spotTest_components.2.2.2.1]; push_neg; linarith [Real.pi_pos.le])]
  rw [if_pos (show Real.pi / 4 ≥ spotTestLight.m_lightData.angle -
      spotTestLight.m_lightData.penumbra by
    rw [spotTest_components.2.2.2.1, spotTest_components.2.2.2.2.1]
    linarith [Real.pi_pos.le])]
  rw [spotTest_fall_eval, spotTest_components.2.2.2.2.2]
  unfold Vec4.ofVec3 Vec4.xyz
  norm_num

/-- C7 counterexample: at the concrete spot light (outer angle `π/2`,
penumbra `π/3`, white color) and the position at angle `θ = π/4` (normalized
penumbra offset `x = 1/4`), the code returns the color scaled by
`1 - (-2x³+3x²) = 27/32`, whereas the claim — color scaled by the cubic ease
`-2x³+3x² = 5/32` itself — predicts `(5/32, 5/32, 5/32)`. -/
theorem spot_penumbra_cex :
    Light.getColor spotTestLight spotTestPos = ⟨27/32, 27/32, 27/32, 1⟩ ∧
    (-2 * (1/4 : ℝ) ^ 3 + 3 * (1/4) ^ 2 = 5/32) ∧
    Light.getColor spotTestLight spotTestPos ≠ ⟨5/32, 5/32, 5/32, 1⟩ := by
  refine ⟨spot_band_eval, by norm_num, ?_⟩
  rw [spot_band_eval]
  intro h
  injection h with hx
  norm_num at hx

/-- C7 amended: for a spot light and a position at angle `θ` (computed via
`acos`) from the spotlight direction: zero color beyond the outer cone
angle; in the penumbra band (`inner ≤ θ ≤ outer`) the light color scaled by
**one minus** the cubic ease `-2x³+3x²` of the normalized angular offset
`x = (θ - inner)/(outer - inner)` (the ease itself is the fourth conjunct);
the full light color strictly inside the inner cone; and for every non-spot
(point or directional) light the constant light color independent of
position. -/
theorem spot_getColor_cases (l : Light) (pos : Vec3)
    (hspot : l.m_lightData.type = LightType.spot)
    (hdist : (pos - l.m_lightData.pos.xyz).length ≠ 0)
    (theta : ℝ)
    (htheta : Real.arccos (Vec3.dot (pos - l.m_lightData.pos.xyz)
        (l.m_lightData.dir.xyz.normalize) /
      (pos - l.m_lightData.pos.xyz).length) = theta) :
    (theta > l.m_lightData.angle → Light.getColor l pos = ⟨0, 0, 0, 1⟩) ∧
    (¬theta > l.m_lightData.angle →
      theta ≥ l.m_lightData.angle - l.m_lightData.penumbra →
      Light.getColor l pos =
        Vec4.ofVec3 ((1 - l.smoothFallOff theta) • l.m_lightData.color.xyz) 1) ∧
    (¬theta > l.m_lightData.angle →
      ¬theta ≥ l.m_lightData.angle - l.m_lightData.penumbra →
      Light.getColor l pos = l.m_lightData.color) ∧
    l.smoothFallOff theta =
      -2 * ((theta - (l.m_lightData.angle - l.m_lightData.penumbra)) /
          (l.m_lightData.angle - (l.m_lightData.angle - l.m_lightData.penumbra))) ^ 3 +
        3 * ((theta - (l.m_lightData.angle - l.m_lightData.penumbra)) /
          (l.m_lightData.angle - (l.m_lightData.angle - l.m_lightData.penumbra))) ^ 2 ∧
    (∀ (l2 : Light) (pos2 : Vec3), l2.m_lightData.type ≠ LightType.spot →
      Light.getColor l2 pos2 = l2.m_lightData.color) := by
  refine ⟨?_, ?_, ?_, ?_, ?_⟩
  · intro hgt
    unfold Light.getColor
    rw [if_pos hspot]
    simp only [htheta]
    rw [if_neg hdist, if_pos hgt]
  · intro hng hband
    unfold Light.getColor
    rw [if_pos hspot]
    simp only [htheta]
    rw [if_neg hdist, if_neg hng, if_pos hband]
  · intro hng hnb
    unfold Light.getColor
    rw [if_pos hspot]
    simp only [htheta]
    rw [if_neg hdist, if_neg hng, if_neg hnb]
  · unfold Light.smoothFallOff
    rw [if_neg (not_ne_iff.mpr hspot)]
  · intro l2 pos2 h2
    unfold Light.getColor
    rw [if_neg h2]

/-- Witness for C7 at the concrete spot light: the theorem's penumbra branch
applies and yields the `1 - ease` scaling, with the ease equal to `5/32`. -/
theorem spot_getColor_cases_witness :
    Light.getColor spotTestLight spotTestPos =
      Vec4.ofVec3 ((1 - spotTestLight.smoothFallOff (Real.pi / 4)) •
        spotTestLight.m_lightData.color.xyz) 1 ∧
    spotTestLight.smoothFallOff (Real.pi / 4) = 5/32 := by
  have h := spot_getColor_cases spotTestLight spotTestPos spotTest_components.1
    (by rw [spotTest_dist_eval]; exact sqrt_two_ne_zero) (Real.pi / 4) spotTest_theta_eval_orig
  refine ⟨?_, spotTest_fall_eval⟩
  apply h.2.1
  · rw [spotTest_components.2.2.2.1]
    push_neg
    linarith [Real.pi_pos.le]
  · rw [spotTest_components.2.2.2.1, spotTest_components.2.2.2.2.1]
    linarith [Real.pi_pos.le]

/-! ## C8: absent texture and no-intersection defaults -/

/-- Helper: the cone at `rayConeMiss` (origin `(10,0,0)`, direction `+x`)
reports `-41/4`, not `+infinity`, although no strictly-positive in-bounds
candidate exists there. -/
theorem cone_miss_eval :
    Primitive.getIntersectionT coneTest rayConeMiss = ((-41/4 : ℝ) : WithTop ℝ) := by
  have hBoth : solveQuadraticBothSolutions 1 20 (1599/16) =
      (((-41/4 : ℝ) : WithTop ℝ), ((-39/4 : ℝ) : WithTop ℝ)) := by
    rw [solveQuadraticBoth_eval 1 20 (1599/16) (1/2) one_ne_zero (by norm_num)
      (by norm_num)]
    norm_num
  show coneGetIntersectionT (1/2) 1 rayConeMiss = ((-41/4 : ℝ) : WithTop ℝ)
  unfold coneGetIntersectionT rayConeMiss
  norm_num [Ray.getDir, Ray.getOrigin, Ray.getPos]
  rw [hBoth]
  norm_num [getSmallest]
  exact_mod_cast (by norm_num : (-(41/4) : ℝ) ≤ -(39/4))

/-- C8 counterexample: both halves of the claim fail on the code.  The
defined "no texture" color returned by `getTexture` is `(0,0,0,1)` — black
with alpha 1, i.e. fully *opaque* — not the fully transparent `(0,0,0,0)`
the claim describes.  And a primitive with no valid intersection does not
always report `+infinity`: at `rayConeMiss` the cone has only the negative
lateral roots `-41/4` and `-39/4` (both inside the height bounds) and a base
plane parallel to the ray, so no strictly-positive in-bounds intersection
exists, yet `getIntersectionT` reports `-41/4` — neither `+infinity` nor a
positive hit parameter. -/
theorem no_texture_not_transparent_cex :
    Primitive.getTexture sphereTest ⟨0, 0, 0⟩ = ⟨0, 0, 0, 1⟩ ∧
    Primitive.getTexture sphereTest ⟨0, 0, 0⟩ ≠ ⟨0, 0, 0, 0⟩ ∧
    Primitive.getIntersectionT coneTest rayConeMiss = ((-41/4 : ℝ) : WithTop ℝ) ∧
    ((-41/4 : ℝ) : WithTop ℝ) ≠ (⊤ : WithTop ℝ) ∧
    ¬(0 : WithTop ℝ) < ((-41/4 : ℝ) : WithTop ℝ) := by
  have h : Primitive.getTexture sphereTest ⟨0, 0, 0⟩ = ⟨0, 0, 0, 1⟩ := by
    unfold Primitive.getTexture
    rw [if_pos (show sphereTest.m_textureInfo.isUsed = false from rfl)]
  refine ⟨h, ?_, cone_miss_eval, WithTop.coe_ne_top, ?_⟩
  · rw [h]
    intro hh
    injection hh with _ _ _ hw
    norm_num at hw
  · have hle : ((-41/4 : ℝ) : WithTop ℝ) ≤ 0 := by
      exact_mod_cast (by norm_num : (-41/4 : ℝ) ≤ 0)
    exact not_lt.mpr hle

/-! Positivity of every finite intersection report of the Sphere, Cube and
Cylinder variants (the Cone is excluded: see the counterexample above and
claim C1). -/

theorem solveQuadratic_coe_pos (A B C t : ℝ)
    (h : solveQuadratic A B C = (t : WithTop ℝ)) : 0 < t := by
  unfold solveQuadratic at h
  by_cases hA : A = 0
  · rw [if_pos hA] at h
    exact absurd h.symm WithTop.coe_ne_top
  · rw [if_neg hA] at h
    simp only [] at h
    split at h
    · split at h
      · rename_i hc
        have ht : (-B - Real.sqrt (B ^ 2 - 4 * A * C)) / (2 * A) = t := by
          exact_mod_cast h
        rw [← ht]
        exact hc.1
      · split at h
        · rename_i hc
          have ht : (-B + Real.sqrt (B ^ 2 - 4 * A * C)) / (2 * A) = t := by
            exact_mod_cast h
          rw [← ht]
          exact hc.1
        · exact absurd h.symm WithTop.coe_ne_top
    · exact absurd h.symm WithTop.coe_ne_top

theorem intersectPlane_coe_pos (rayDir rayPos : Vec3) (plane : Plane) (planeOffset t : ℝ)
    (h : intersectPlane rayDir rayPos plane planeOffset = (t : WithTop ℝ)) : 0 < t := by
  unfold intersectPlane at h
  simp only [] at h
  split at h
  · rename_i hc
    have ht := h
    rw [WithTop.coe_inj] at ht
    rw [← ht]
    exact hc
  · exact absurd h.symm WithTop.coe_ne_top

theorem min_coe_pos (x y : WithTop ℝ)
    (hx : ∀ u : ℝ, x = (u : WithTop ℝ) → 0 < u)
    (hy : ∀ u : ℝ, y = (u : WithTop ℝ) → 0 < u)
    (t : ℝ) (h : min x y = (t : WithTop ℝ)) : 0 < t := by
  cases x with
  | top =>
    cases y with
    | top =>
      rw [min_self] at h
      exact absurd h.symm WithTop.coe_ne_top
    | coe v =>
      rw [min_eq_right le_top] at h
      rw [WithTop.coe_inj] at h
      rw [← h]
      exact hy v rfl
  | coe u =>
    cases y with
    | top =>
      rw [min_eq_left le_top] at h
      rw [WithTop.coe_inj] at h
      rw [← h]
      exact hx u rfl
    | coe v =>
      rw [← WithTop.coe_min, WithTop.coe_inj] at h
      rw [← h]
      exact lt_min (hx u rfl) (hy v rfl)

theorem getSmallest_coe_pos : ∀ (l : List ℝ), (∀ u ∈ l, 0 < u) →
    ∀ t : ℝ, getSmallest l = (t : WithTop ℝ) → 0 < t := by
  intro l
  induction l with
  | nil =>
    intro _ t h
    exact absurd h.symm WithTop.coe_ne_top
  | cons a l ih =>
    intro hl t h
    have hstep : getSmallest (a :: l) = min ((a : ℝ) : WithTop ℝ) (getSmallest l) := rfl
    rw [hstep] at h
    refine min_coe_pos _ _ ?_ ?_ t h
    · intro u hu
      have hau : a = u := by exact_mod_cast hu
      rw [← hau]
      exact hl a (List.mem_cons_self a l)
    · intro u hu
      exact ih (fun v hv => hl v (List.mem_cons_of_mem a hv)) u hu

theorem sphere_top_or_pos (m_radius : ℝ) (objSpaceRay : Ray) :
    sphereGetIntersectionT m_radius objSpaceRay = ⊤ ∨
    ∃ t : ℝ, sphereGetIntersectionT m_radius objSpaceRay = (t : WithTop ℝ) ∧ 0 < t := by
  cases h : sphereGetIntersectionT m_radius objSpaceRay with
  | top => exact Or.inl rfl
  | coe t =>
    refine Or.inr ⟨t, rfl, ?_⟩
    unfold sphereGetIntersectionT at h
    simp only [] at h
    exact solveQuadratic_coe_pos _ _ _ t h

theorem cube_top_or_pos (m_sideLength : ℝ) (objSpaceRay : Ray) :
    cubeGetIntersectionT m_sideLength objSpaceRay = ⊤ ∨
    ∃ t : ℝ, cubeGetIntersectionT m_sideLength objSpaceRay = (t : WithTop ℝ) ∧ 0 < t := by
  cases h : cubeGetIntersectionT m_sideLength objSpaceRay with
  | top => exact Or.inl rfl
  | coe t =>
    refine Or.inr ⟨t, rfl, ?_⟩
    unfold cubeGetIntersectionT at h
    simp only [] at h
    refine getSmallest_coe_pos _ ?_ t h
    intro v hv
    simp only [List.mem_append] at hv
    have hip : ∀ (pl : Plane) (o : ℝ) (u : ℝ),
        intersectPlane objSpaceRay.getDir objSpaceRay.getOrigin pl o = (u : WithTop ℝ) →
          0 < u := fun pl o u hu => intersectPlane_coe_pos _ _ _ _ u hu
    rcases hv with (hv1 | hv2) | hv3
    · revert hv1
      cases hXY : min (intersectPlane objSpaceRay.getDir objSpaceRay.getOrigin Plane.XY (1/2))
          (intersectPlane objSpaceRay.getDir objSpaceRay.getOrigin Plane.XY (-(1/2))) with
      | top => intro hv; simp at hv
      | coe w =>
        intro hv
        have hw : 0 < w := min_coe_pos _ _ (hip _ _) (hip _ _) w hXY
        simp only [] at hv
        by_cases hc : isInSquare (objSpaceRay.getPos w).x (objSpaceRay.getPos w).y 1
        · rw [if_pos hc] at hv
          simp at hv
          rw [hv]
          exact hw
        · rw [if_neg hc] at hv
          simp at hv
    · revert hv2
      cases hXZ : min (intersectPlane objSpaceRay.getDir objSpaceRay.getOrigin Plane.XZ (1/2))
          (intersectPlane objSpaceRay.getDir objSpaceRay.getOrigin Plane.XZ (-(1/2))) with
      | top => intro hv; simp at hv
      | coe w =>
        intro hv
        have hw : 0 < w := min_coe_pos _ _ (hip _ _) (hip _ _) w hXZ
        simp only [] at hv
        by_cases hc : isInSquare (objSpaceRay.getPos w).x (objSpaceRay.getPos w).z 1
        · rw [if_pos hc] at hv
          simp at hv
          rw [hv]
          exact hw
        · rw [if_neg hc] at hv
          simp at hv
    · revert hv3
      cases hYZ : min (intersectPlane objSpaceRay.getDir objSpaceRay.getOrigin Plane.YZ (1/2))
          (intersectPlane objSpaceRay.getDir objSpaceRay.getOrigin Plane.YZ (-(1/2))) with
      | top => intro hv; simp at hv
      | coe w =>
        intro hv
        have hw : 0 < w := min_coe_pos _ _ (hip _ _) (hip _ _) w hYZ
        simp only [] at hv
        by_cases hc : isInSquare (objSpaceRay.getPos w).y (objSpaceRay.getPos w).z 1
        · rw [if_pos hc] at hv
          simp at hv
          rw [hv]
          exact hw
        · rw [if_neg hc] at hv
          simp at hv

theorem cylinder_top_or_pos (m_height m_radius : ℝ) (objSpaceRay : Ray) :
    cylinderGetIntersectionT m_height m_radius objSpaceRay = ⊤ ∨
    ∃ t : ℝ, cylinderGetIntersectionT m_height m_radius objSpaceRay = (t : WithTop ℝ) ∧
      0 < t := by
  cases h : cylinderGetIntersectionT m_height m_radius objSpaceRay with
  | top => exact Or.inl rfl
  | coe t =>
    refine Or.inr ⟨t, rfl, ?_⟩
    unfold cylinderGetIntersectionT at h
    simp only [] at h
    refine getSmallest_coe_pos _ ?_ t h
    intro v hv
    simp only [List.mem_append] at hv
    have hip : ∀ (pl : Plane) (o : ℝ) (u : ℝ),
        intersectPlane objSpaceRay.getDir objSpaceRay.getOrigin pl o = (u : WithTop ℝ) →
          0 < u := fun pl o u hu => intersectPlane_coe_pos _ _ _ _ u hu
    rcases hv with hv1 | hv2
    · revert hv1
      cases hCap : min (intersectPlane objSpaceRay.getDir objSpaceRay.getOrigin Plane.XZ (1/2))
          (intersectPlane objSpaceRay.getDir objSpaceRay.getOrigin Plane.XZ (-(1/2))) with
      | top => intro hv; simp at hv
      | coe w =>
        intro hv
        have hw : 0 < w := min_coe_pos _ _ (hip _ _) (hip _ _) w hCap
        simp only [] at hv
        by_cases hc : (objSpaceRay.getPos w).x ^ 2 + (objSpaceRay.getPos w).z ^ 2 ≤
            m_radius ^ 2
        · rw [if_pos hc] at hv
          simp at hv
          rw [hv]
          exact hw
        · rw [if_neg hc] at hv
          simp at hv
    · revert hv2
      cases hBody : solveQuadratic (objSpaceRay.getDir.x ^ 2 + objSpaceRay.getDir.z ^ 2)
          (2 * (objSpaceRay.getDir.x * objSpaceRay.getOrigin.x +
            objSpaceRay.getDir.z * objSpaceRay.getOrigin.z))
          (objSpaceRay.getOrigin.x ^ 2 + objSpaceRay.getOrigin.z ^ 2 - m_radius ^ 2) with
      | top => intro hv; simp at hv
      | coe w =>
        intro hv
        have hw : 0 < w := solveQuadratic_coe_pos _ _ _ w hBody
        simp only [] at hv
        by_cases hc : -(m_height / 2) ≤ (objSpaceRay.getPos w).y ∧
            (objSpaceRay.getPos w).y ≤ m_height / 2
        · rw [if_pos hc] at hv
          simp at hv
          rw [hv]
          exact hw
        · rw [if_neg hc] at hv
          simp at hv

/-- C8 amended: a primitive whose texture map is absent/unused returns the
defined constant "no texture" color — fully *opaque* black `(0,0,0,1)` —
for every surface point and never fails; and for every Sphere, Cube or
Cylinder primitive, `getIntersectionT` reports either `+infinity` or a
strictly positive hit parameter, so "no valid intersection" is the ordinary
value `+infinity`, never an error.  The Cone variant is excluded: as the
counterexample (and claim C1) shows, when only non-positive roots exist it
can report a negative value instead of `+infinity` — though still a total,
defined value, never an error. -/
theorem no_texture_defaults :
    (∀ (p : Primitive) (pt : Vec3), p.m_textureInfo.isUsed = false →
      p.getTexture pt = ⟨0, 0, 0, 1⟩) ∧
    (∀ (p : Primitive) (objSpaceRay : Ray),
      (∀ r h : ℝ, p.shape ≠ PrimitiveShape.cone r h) →
      p.getIntersectionT objSpaceRay = ⊤ ∨
        ∃ t : ℝ, p.getIntersectionT objSpaceRay = (t : WithTop ℝ) ∧ 0 < t) := by
  constructor
  · intro p pt h
    unfold Primitive.getTexture
    rw [if_pos h]
  · intro p objSpaceRay hnc
    unfold Primitive.getIntersectionT
    cases hs : p.shape with
    | sphere r => exact sphere_top_or_pos r objSpaceRay
    | cone r h => exact absurd hs (hnc r h)
    | cube s => exact cube_top_or_pos s objSpaceRay
    | cylinder hh r => exact cylinder_top_or_pos hh r objSpaceRay

/-- Witness for C8: the concrete texture-less sphere, also hit by the
spec §8 ray. -/
theorem no_texture_defaults_witness :
    Primitive.getTexture sphereTest ⟨1, 2, 3⟩ = ⟨0, 0, 0, 1⟩ ∧
    (Primitive.getIntersectionT sphereTest raySphereFront = ⊤ ∨
      ∃ t : ℝ, Primitive.getIntersectionT sphereTest raySphereFront = (t : WithTop ℝ) ∧
        0 < t) :=
  ⟨no_texture_defaults.1 sphereTest ⟨1, 2, 3⟩ rfl,
   no_texture_defaults.2 sphereTest raySphereFront (fun r h => by simp [sphereTest])⟩

end RT
